import Mathlib

/-!
# llm-arena: the streaming aggregation engine of `server.js`

A shallow embedding of `server.js` and the properties of its line decoder
(`consumeSSE`), its three provider adapters (`streamAnthropic`, `streamOpenAI`,
`streamGemini`) and its `/api/run` orchestrator.

Conventions of the embedding.

* JavaScript values are the inductive type `JSVal`; numbers are rationals (IEEE
  rounding is not modelled).
* Built-ins of the platform that `server.js` calls but does not define are
  fields of a `Platform`: the streaming `TextDecoder`, `JSON.parse`, the `ToString`
  and `ToNumber` coercions of the values that are no primitives, and
  `String.prototype.slice`, which counts UTF-16 code units.
* A number that is `NaN` is `none`.
* `Date.now()` is an external clock; every function that reads it takes the
  readings as arguments.
* A callback that can throw returns `Except JSError _`.
-/

set_option autoImplicit false

namespace Arena

/-! ## JavaScript values -/

/-- The JavaScript values that occur in `server.js`: the results of `JSON.parse`
and of property access on them (`undefined` for a missing property). -/
inductive JSVal where
  | undefined
  | null
  | bool (b : Bool)
  | num (q : ℚ)
  | str (s : String)
  | arr (xs : List JSVal)
  | obj (fields : List (String × JSVal))

/-- A thrown JavaScript error: its `name` and its `message`. -/
structure JSError where
  name : String
  message : String
deriving DecidableEq, Repr

/-- `ToBoolean`: `undefined`, `null`, `false`, `0` and `''` are falsy. -/
def JSVal.truthy : JSVal → Bool
  | .undefined => false
  | .null => false
  | .bool b => b
  | .num q => decide (q ≠ 0)
  | .str s => decide (s ≠ "")
  | .arr _ => true
  | .obj _ => true

/-- `a || b`. -/
def JSVal.or (a b : JSVal) : JSVal := if a.truthy then a else b

/-- `v === 'lit'` for a string literal. -/
def JSVal.isStr (v : JSVal) (lit : String) : Bool :=
  match v with
  | .str s => decide (s = lit)
  | _ => false

/-- Look a key up among the own properties of an object. -/
def lookupField (key : String) : List (String × JSVal) → JSVal
  | [] => .undefined
  | (k, v) :: rest => if k = key then v else lookupField key rest

/-- The error of reading a property of `null` or `undefined`. -/
def typeError (key : String) : JSError :=
  ⟨"TypeError", "Cannot read properties of null (reading '" ++ key ++ "')"⟩

/-- Plain property access `v.key` for a key that is no built-in property of any
prototype (`type`, `delta`, `text`, ...): it throws on `null` and `undefined`,
reads the own property of an object and is `undefined` on every other value. -/
def JSVal.get (v : JSVal) (key : String) : Except JSError JSVal :=
  match v with
  | .undefined => .error (typeError key)
  | .null => .error (typeError key)
  | .obj fields => .ok (lookupField key fields)
  | _ => .ok .undefined

/-- Optional chaining `v?.key`: `undefined` when `v` is `null` or `undefined`. -/
def JSVal.optGet (v : JSVal) (key : String) : JSVal :=
  match v with
  | .obj fields => lookupField key fields
  | _ => .undefined

/-- Optional element access `v?.[0]`. -/
def JSVal.optFirst (v : JSVal) : JSVal :=
  match v with
  | .arr (x :: _) => x
  | .str s =>
    match s.data with
    | c :: _ => .str (String.mk [c])
    | [] => .undefined
  | .obj fields => lookupField "0" fields
  | _ => .undefined

/-! ## The platform -/

/-- A byte of the response body. -/
abbrev Byte := ℕ

/-- The built-ins `server.js` relies on.

* `decStep` is the streaming `TextDecoder` (`decode(value, { stream: true })`): a
  state machine over the bytes whose state, kept between calls, holds the bytes of
  an incomplete character;
* `parse` is `JSON.parse`, `none` when it throws;
* `coerce` is `ToString` on a value that is not a string, which can throw;
* `coerceNum` is `ToNumber` on a string, an array or an object: a number, `NaN`
  (`none`), or a throw (an object whose `valueOf` and `toString` are not callable);
* `slice` is `text.slice(from, to)`, on UTF-16 code units. -/
structure Platform where
  DecState : Type
  decInit : DecState
  decStep : DecState → Byte → DecState × List Char
  parse : List Char → Option JSVal
  coerce : JSVal → Except JSError String
  coerceNum : JSVal → Except JSError (Option ℚ)
  slice : String → ℕ → ℕ → String

/-- One call `decoder.decode(value, { stream: true })`: the decoder state after the
bytes of `value` and the characters they yield. -/
def Platform.decode (P : Platform) : P.DecState → List Byte → P.DecState × List Char
  | d, [] => (d, [])
  | d, b :: bs =>
    let r := P.decStep d b
    let r' := P.decode r.1 bs
    (r'.1, r.2 ++ r'.2)

/-- `ToString`: the identity on strings. -/
def Platform.toStr (P : Platform) : JSVal → Except JSError String
  | .str s => .ok s
  | v => P.coerce v

/-- `ToNumber`, which the arithmetic operators apply to their operands: `NaN` for
`undefined`, 0 for `null` and `false`, 1 for `true`, the number itself for a number,
and the coercion of the platform for a string, an array or an object. -/
def Platform.toNumber (P : Platform) : JSVal → Except JSError (Option ℚ)
  | .undefined => .ok none
  | .null => .ok (some 0)
  | .bool b => .ok (some (if b then 1 else 0))
  | .num q => .ok (some q)
  | v => P.coerceNum v

/-! ## `consumeSSE` -/

/-- `s.split('\n')`: never empty, the last segment is what follows the last
newline. -/
def splitLines : List Char → List (List Char)
  | [] => [[]]
  | c :: cs =>
    if c = '\n' then [] :: splitLines cs
    else
      match splitLines cs with
      | [] => [[c]]
      | seg :: segs => (c :: seg) :: segs

/-- The prefix of an event-data line. -/
def dataMarker : List Char := ['d', 'a', 't', 'a', ':', ' ']

/-- `line.startsWith('data: ')`. -/
def startsWithData (line : List Char) : Bool := dataMarker.isPrefixOf line

/-- Run a callback over lines until it throws: the state reached (the state
before the line on which the callback threw) and the error thrown, if any. -/
def deliver {σ : Type} (onLine : σ → List Char → Except JSError σ) :
    List (List Char) → σ → σ × Option JSError
  | [], s => (s, none)
  | line :: rest, s =>
    match onLine s line with
    | .ok s' => deliver onLine rest s'
    | .error e => (s, some e)

/-- A response body as its reader yields it: the chunks of the successive
`reader.read()` calls, then either the end of the stream (`failure = none`) or a
`read()` that rejects (a transport failure, or the `AbortError` of a cancelled
call). -/
structure Body where
  chunks : List (List Byte)
  failure : Option JSError

/-- The loop of `consumeSSE` from decoder state `d` and buffer `buf`: each chunk
is decoded and appended to the buffer, the buffer is split on newlines, the last
segment is kept and the others that start with `data: ` go to the callback; at the
end of the stream a non-empty kept segment that starts with `data: ` goes to the
callback too. A `read()` that rejects leaves the loop with its error. -/
def consumeLoop {σ : Type} (P : Platform) (onLine : σ → List Char → Except JSError σ)
    (failure : Option JSError) :
    List (List Byte) → P.DecState → List Char → σ → σ × Option JSError
  | [], _, buf, s =>
    match failure with
    | some e => (s, some e)
    | none => if buf ≠ [] ∧ startsWithData buf then deliver onLine [buf] s else (s, none)
  | value :: rest, d, buf, s =>
    let r := P.decode d value
    let parts := splitLines (buf ++ r.2)
    match deliver onLine (parts.dropLast.filter startsWithData) s with
    | (s', none) => consumeLoop P onLine failure rest r.1 (parts.getLastD []) s'
    | (s', some e) => (s', some e)

/-- `consumeSSE(reader, decoder, onLine)`: the state the callback reaches and the
error thrown, if any. -/
def consumeSSE {σ : Type} (P : Platform) (onLine : σ → List Char → Except JSError σ)
    (body : Body) (s : σ) : σ × Option JSError :=
  consumeLoop P onLine body.failure body.chunks P.decInit [] s

/-- The lines `consumeSSE` delivers: the callback records its argument. -/
def sseLines (P : Platform) (body : Body) : List (List Char) :=
  (consumeSSE P (fun acc line => .ok (acc ++ [line])) body []).1

/-- A decoder of one character per byte, with a table for `JSON.parse`; the
coercion to a number gives `NaN`, and `slice` is the one of texts without
characters beyond the basic plane. -/
def tablePlatform (table : List (List Char × JSVal)) : Platform where
  DecState := Unit
  decInit := ()
  decStep := fun _ b => ((), [Char.ofNat b])
  parse := fun s => (table.find? (fun e => decide (e.1 = s))).map Prod.snd
  coerce := fun _ => .ok "[value]"
  coerceNum := fun _ => .ok none
  slice := fun text i j => String.mk ((text.data.drop i).take (j - i))

/-! ## The provider adapters -/

/-- A model descriptor of the catalogue (`models.json`). -/
structure Model where
  id : String
  provider : String
  inputCostPer1M : ℚ
  outputCostPer1M : ℚ
  noTemperature : Bool

/-- An event an adapter passes to `onEvent`: `{ type: 'chunk', content }`. -/
inductive AdapterEvent where
  | chunk (content : JSVal)

/-- The content of an adapter event. -/
def AdapterEvent.content : AdapterEvent → JSVal
  | .chunk c => c

/-- The local variables of an adapter invocation (`ttft`, `inputTokens`,
`outputTokens`, `output`, and `streamError` for `streamAnthropic`), with the events
passed to `onEvent` so far. `ttft = none` and `streamError = JSVal.null` stand for
`null`. -/
structure AdapterState where
  ttft : Option ℤ
  inputTokens : JSVal
  outputTokens : JSVal
  output : String
  streamError : JSVal
  events : List AdapterEvent

/-- The variables as declared: `ttft = null, inputTokens = 0, outputTokens = 0,
output = ''` and `streamError = null`. -/
def AdapterState.init : AdapterState :=
  ⟨none, .num 0, .num 0, "", .null, []⟩

/-- The value an adapter returns. -/
structure AdapterResult where
  ttft : ℤ
  totalTime : ℤ
  inputTokens : JSVal
  outputTokens : JSVal
  output : String

/-- What an adapter invocation does: the events it passes to `onEvent`, in order,
and how its promise settles. -/
structure AdapterRun where
  events : List AdapterEvent
  settle : Except JSError AdapterResult

/-- `if (ttft === null) ttft = Date.now() - start`, where `now` is the reading of
the clock at that moment. -/
def stampTtft (start now : ℤ) (ttft : Option ℤ) : Option ℤ :=
  match ttft with
  | none => some (now - start)
  | some t => some t

/-- The callback `streamAnthropic` gives to `consumeSSE`. -/
def anthropicOnLine (P : Platform) (start now : ℤ) (st : AdapterState) (line : List Char) :
    Except JSError AdapterState :=
  match P.parse (line.drop 6) with
  | none => .ok st
  | some data => do
    let type ← data.get "type"
    if type.isStr "message_start" then
      let message ← data.get "message"
      pure { st with
        inputTokens := ((message.optGet "usage").optGet "input_tokens").or (.num 0) }
    else if type.isStr "content_block_delta" then
      let delta ← data.get "delta"
      let text := (delta.optGet "text").or (.str "")
      if !text.truthy then pure st
      else
        let piece ← P.toStr text
        pure { st with
          ttft := stampTtft start now st.ttft
          output := st.output ++ piece
          events := st.events ++ [.chunk text] }
    else if type.isStr "message_delta" then
      let usage ← data.get "usage"
      pure { st with outputTokens := (usage.optGet "output_tokens").or (.num 0) }
    else if type.isStr "error" then
      let error ← data.get "error"
      pure { st with
        streamError := (error.optGet "message").or (.str "Anthropic stream error") }
    else pure st

/-- White space and line terminators, which `String.prototype.trim` removes. -/
def isJSSpace (c : Char) : Bool :=
  c.toNat ∈ [0x09, 0x0A, 0x0B, 0x0C, 0x0D, 0x20, 0xA0, 0x1680, 0x2028, 0x2029, 0x202F,
    0x205F, 0x3000, 0xFEFF] || (0x2000 ≤ c.toNat && c.toNat ≤ 0x200A)

/-- `s.trim()`. -/
def jsTrim (s : List Char) : List Char :=
  ((s.dropWhile isJSSpace).reverse.dropWhile isJSSpace).reverse

/-- The callback `streamOpenAI` gives to `consumeSSE`. -/
def openAIOnLine (P : Platform) (start now : ℤ) (st : AdapterState) (line : List Char) :
    Except JSError AdapterState :=
  match P.parse (jsTrim (line.drop 6)) with
  | none => .ok st
  | some data => do
    let type ← data.get "type"
    if type.isStr "response.output_text.delta" then
      let delta ← data.get "delta"
      let piece ← P.toStr (delta.or (.str ""))
      pure { st with
        ttft := stampTtft start now st.ttft
        output := st.output ++ piece
        events := st.events ++ [.chunk (delta.or (.str ""))] }
    else if type.isStr "response.completed" then
      let response ← data.get "response"
      let usage := response.optGet "usage"
      if usage.truthy then
        let inputTokens ← usage.get "input_tokens"
        let outputTokens ← usage.get "output_tokens"
        pure { st with
          inputTokens := inputTokens.or (.num 0)
          outputTokens := outputTokens.or (.num 0) }
      else pure st
    else pure st

/-- The step of the Gemini callback after the text fragment: the usage counters. -/
def geminiUsage (data : JSVal) (st : AdapterState) : Except JSError AdapterState := do
  let usageMetadata ← data.get "usageMetadata"
  if usageMetadata.truthy then
    let promptTokenCount ← usageMetadata.get "promptTokenCount"
    let candidatesTokenCount ← usageMetadata.get "candidatesTokenCount"
    pure { st with
      inputTokens := promptTokenCount.or (.num 0)
      outputTokens := candidatesTokenCount.or (.num 0) }
  else pure st

/-- The callback `streamGemini` gives to `consumeSSE`. -/
def geminiOnLine (P : Platform) (start now : ℤ) (st : AdapterState) (line : List Char) :
    Except JSError AdapterState :=
  match P.parse (line.drop 6) with
  | none => .ok st
  | some data => do
    let candidates ← data.get "candidates"
    let text := ((((candidates.optFirst).optGet "content").optGet "parts").optFirst).optGet "text"
    if text.truthy then
      let piece ← P.toStr text
      geminiUsage data { st with
        ttft := stampTtft start now st.ttft
        output := st.output ++ piece
        events := st.events ++ [.chunk text] }
    else geminiUsage data st

/-- `v !== undefined`. -/
def JSVal.isDefined : JSVal → Bool
  | .undefined => false
  | _ => true

/-- The request payload of `streamAnthropic`. -/
def anthropicBody (model : Model) (prompt systemPrompt maxTokens temperature webSearch : JSVal) :
    JSVal :=
  .obj ([("model", .str model.id),
      ("messages", .arr [.obj [("role", .str "user"), ("content", prompt)]]),
      ("max_tokens", maxTokens),
      ("stream", .bool true)]
    ++ (if systemPrompt.truthy then [("system", systemPrompt)] else [])
    ++ (if temperature.isDefined then [("temperature", temperature)] else [])
    ++ (if webSearch.truthy then
          [("tools", .arr [.obj [("type", .str "web_search_20250305"),
            ("name", .str "web_search"), ("max_uses", .num 5)]])]
        else []))

/-- The request payload of `streamOpenAI`. -/
def openAIBody (model : Model) (prompt systemPrompt maxTokens temperature webSearch : JSVal) :
    JSVal :=
  .obj ([("model", .str model.id),
      ("input", .arr
        ((if systemPrompt.truthy then
            [.obj [("role", .str "system"), ("content", systemPrompt)]]
          else [])
        ++ [.obj [("role", .str "user"), ("content", prompt)]])),
      ("max_output_tokens", maxTokens),
      ("stream", .bool true)]
    ++ (if temperature.isDefined && !model.noTemperature then [("temperature", temperature)]
        else [])
    ++ (if webSearch.truthy then [("tools", .arr [.obj [("type", .str "web_search")]])]
        else []))

/-- The request payload of `streamGemini`; the temperature goes into
`generationConfig`. -/
def geminiBody (_model : Model) (prompt systemPrompt maxTokens temperature webSearch : JSVal) :
    JSVal :=
  .obj ([("contents", .arr [.obj [("parts", .arr [.obj [("text", prompt)]])]]),
      ("generationConfig", .obj ([("maxOutputTokens", maxTokens)]
        ++ (if temperature.isDefined then [("temperature", temperature)] else [])))]
    ++ (if systemPrompt.truthy then
          [("systemInstruction", .obj [("parts", .arr [.obj [("text", systemPrompt)]])])]
        else [])
    ++ (if webSearch.truthy then [("tools", .arr [.obj [("google_search", .obj [])]])]
        else []))

/-- The response of a provider to the initial call. -/
structure HttpResponse where
  ok : Bool
  status : ℕ
  text : Except JSError String
  body : Body

/-- What an adapter invocation finds around it: the environment variables, how
`fetch(url, { body })` settles, and the readings of `Date.now()` when the call is
issued (`start`), when the first text fragment is seen (`firstFragment`) and when
the adapter returns (`finish`). -/
structure CallEnv where
  env : String → Option String
  fetch : String → JSVal → Except JSError HttpResponse
  start : ℤ
  firstFragment : ℤ
  finish : ℤ

/-- `!apiKey` for an environment variable: unset or empty. -/
def keyMissing (key : Option String) : Bool :=
  match key with
  | none => true
  | some k => decide (k = "")

/-- `new Error(message)` for a string. -/
def mkError (message : String) : JSError := ⟨"Error", message⟩

/-- The failure on a response that is not 2xx: the status and
`text.slice(0, 300)` of the body. -/
def httpFailure (P : Platform) (resp : HttpResponse) : JSError :=
  match resp.text with
  | .error e => e
  | .ok text => mkError (toString resp.status ++ ": " ++ P.slice text 0 300)

/-- `ttft || 0`. -/
def ttftOrZero (ttft : Option ℤ) : ℤ :=
  match ttft with
  | none => 0
  | some t => if t ≠ 0 then t else 0

/-- The object an adapter returns. -/
def adapterResult (st : AdapterState) (start finish : ℤ) : AdapterResult :=
  ⟨ttftOrZero st.ttft, finish - start, st.inputTokens, st.outputTokens, st.output⟩

/-- The common course of an adapter: credential check, initial call, then the
response body through `consumeSSE` with the callback of the adapter. A throwing
callback or a failed read rejects the invocation; `afterStream` is what the
adapter does once the stream is consumed. -/
def runAdapter (P : Platform) (env : CallEnv) (keyName url : String) (body : JSVal)
    (onLine : AdapterState → List Char → Except JSError AdapterState)
    (afterStream : AdapterState → Except JSError AdapterResult) : AdapterRun :=
  if keyMissing (env.env keyName) then ⟨[], .error (mkError (keyName ++ " not configured"))⟩
  else
    match env.fetch url body with
    | .error e => ⟨[], .error e⟩
    | .ok resp =>
      if !resp.ok then ⟨[], .error (httpFailure P resp)⟩
      else
        match consumeSSE P onLine resp.body AdapterState.init with
        | (st, some e) => ⟨st.events, .error e⟩
        | (st, none) => ⟨st.events, afterStream st⟩

/-- `streamAnthropic`: after the stream, a recorded `streamError` is thrown as
`new Error(streamError)`. -/
def streamAnthropic (P : Platform) (env : CallEnv) (model : Model)
    (prompt systemPrompt maxTokens temperature webSearch : JSVal) : AdapterRun :=
  runAdapter P env "ANTHROPIC_API_KEY" "https://api.anthropic.com/v1/messages"
    (anthropicBody model prompt systemPrompt maxTokens temperature webSearch)
    (anthropicOnLine P env.start env.firstFragment)
    (fun st =>
      if st.streamError.truthy then
        match P.toStr st.streamError with
        | .ok message => .error (mkError message)
        | .error e => .error e
      else .ok (adapterResult st env.start env.finish))

/-- `streamOpenAI`. -/
def streamOpenAI (P : Platform) (env : CallEnv) (model : Model)
    (prompt systemPrompt maxTokens temperature webSearch : JSVal) : AdapterRun :=
  runAdapter P env "OPENAI_API_KEY" "https://api.openai.com/v1/responses"
    (openAIBody model prompt systemPrompt maxTokens temperature webSearch)
    (openAIOnLine P env.start env.firstFragment)
    (fun st => .ok (adapterResult st env.start env.finish))

/-- `streamGemini`. -/
def streamGemini (P : Platform) (env : CallEnv) (model : Model)
    (prompt systemPrompt maxTokens temperature webSearch : JSVal) : AdapterRun :=
  runAdapter P env "GEMINI_API_KEY"
    ("https://generativelanguage.googleapis.com/v1beta/models/" ++ model.id
      ++ ":streamGenerateContent?alt=sse")
    (geminiBody model prompt systemPrompt maxTokens temperature webSearch)
    (geminiOnLine P env.start env.firstFragment)
    (fun st => .ok (adapterResult st env.start env.finish))

/-! ## The `/api/run` orchestrator -/

/-- The events written to the outbound stream. -/
inductive Event where
  | start (modelId : String)
  | chunk (modelId : String) (content : JSVal)
  | complete (modelId : String) (ttft totalTime : ℤ) (inputTokens outputTokens : JSVal)
      (tokensPerSecond cost : Option ℚ)
  | error (modelId : String) (error : String)
  | done

/-- The `modelId` field of an event; `done` has none. -/
def Event.modelId? : Event → Option String
  | .start m => some m
  | .chunk m _ => some m
  | .complete m _ _ _ _ _ _ => some m
  | .error m _ => some m
  | .done => none

/-- The event is a `start`. -/
def Event.isStart : Event → Bool
  | .start _ => true
  | _ => false

/-- The event is a `complete` or an `error`. -/
def Event.isTerminal : Event → Bool
  | .complete _ _ _ _ _ _ _ => true
  | .error _ _ => true
  | _ => false

/-- The event is the final `done`. -/
def Event.isDone : Event → Bool
  | .done => true
  | _ => false

/-- The event carries the given `modelId`. -/
def Event.taggedWith (id : String) (e : Event) : Bool :=
  match e.modelId? with
  | some m => decide (m = id)
  | none => false

/-- The response object: `writableEnded` and what went through `res.write`. -/
structure Res where
  writableEnded : Bool
  written : List Event

/-- `sseWrite(res, data)`. -/
def sseWrite (res : Res) (data : Event) : Res :=
  if !res.writableEnded then { res with written := res.written ++ [data] } else res

/-- `res.end()`. -/
def Res.end_ (res : Res) : Res := { res with writableEnded := true }

/-- `Math.round`: the nearest integer, a tie going up. -/
def jsRound (x : ℚ) : ℤ := ⌊x + 1 / 2⌋

/-- The `tokensPerSecond` expression of the `complete` event, on numbers. -/
def tokensPerSecond (outputTokens : ℚ) (totalTime : ℤ) : ℚ :=
  if totalTime > 0 then (jsRound (outputTokens / ((totalTime : ℚ) / 1000) * 10) : ℚ) / 10 else 0

/-- The `cost` expression of the task, on numbers. -/
def cost (inputTokens outputTokens inputCostPer1M outputCostPer1M : ℚ) : ℚ :=
  inputTokens * inputCostPer1M / 1000000 + outputTokens * outputCostPer1M / 1000000

/-- The statements of the `try` block after the adapter returned: the cost, then
the `complete` event with its `tokensPerSecond`. The arithmetic coerces the
counters to numbers, the input tokens first, and a coercion that throws leaves the
block. -/
def completeEvent (P : Platform) (model : Model) (result : AdapterResult) :
    Except JSError Event := do
  let inputTokens ← P.toNumber result.inputTokens
  let outputTokens ← P.toNumber result.outputTokens
  let costOfRun :=
    match inputTokens, outputTokens with
    | some i, some o => some (cost i o model.inputCostPer1M model.outputCostPer1M)
    | _, _ => none
  let perSecond ←
    if result.totalTime > 0 then do
      let outputTokens ← P.toNumber result.outputTokens
      pure (outputTokens.map (fun o => tokensPerSecond o result.totalTime))
    else pure (some 0)
  pure (.complete model.id result.ttft result.totalTime result.inputTokens result.outputTokens
    perSecond costOfRun)

/-- The events one task writes, in order: `start`, the events of the adapter
tagged with the model, then what the `try` block ends with: the `complete` event
when the adapter and the arithmetic succeed, and otherwise, from the `catch`, an
`error` event when the name of the error is not `AbortError`, and nothing when it
is. -/
def taskEvents (P : Platform) (model : Model) (run : AdapterRun) : List Event :=
  [Event.start model.id]
    ++ run.events.map (fun ev => Event.chunk model.id ev.content)
    ++ (match (do let result ← run.settle; completeEvent P model result) with
        | .ok complete => [complete]
        | .error err => if err.name ≠ "AbortError" then [Event.error model.id err.message] else [])

/-- The models of the request: `modelIds.map(id => config.models.find(m => m.id
=== id)).filter(Boolean)`. -/
def selectModels (catalogue : List Model) (modelIds : List String) : List Model :=
  modelIds.filterMap (fun id => catalogue.find? (fun m => decide (m.id = id)))

/-- The tasks of the selected models: the `i`-th task, for model `m`, runs the
invocation `invoke i m`. -/
def tasksFrom (P : Platform) (invoke : ℕ → Model → AdapterRun) :
    ℕ → List Model → List (List Event)
  | _, [] => []
  | i, m :: ms => taskEvents P m (invoke i m) :: tasksFrom P invoke (i + 1) ms

/-- Let the `i`-th task write its next event, if it has one left. -/
def stepTask : ℕ → List (List Event) → Option (Event × List (List Event))
  | _, [] => none
  | 0, [] :: _ => none
  | 0, (e :: q) :: qs => some (e, q :: qs)
  | i + 1, q :: qs =>
    match stepTask i qs with
    | none => none
    | some (e, qs') => some (e, q :: qs')

/-- The concurrent tasks under a schedule: each entry of the schedule names the
task that writes next (an entry naming a task with nothing left is skipped); when
the schedule is used up, the tasks that are left run to their end one after the
other. Every interleaving of the tasks is the run of some schedule; the event loop
produces those in which every task first writes its `start`, in the order of the
request (the schedule `[0, 1, ..]`), since a task first suspends at its `await`. -/
def runTasks : List ℕ → List (List Event) → Res → Res
  | [], qs, res => qs.flatten.foldl sseWrite res
  | i :: sched, qs, res =>
    match stepTask i qs with
    | none => runTasks sched qs res
    | some (e, qs') => runTasks sched qs' (sseWrite res e)

/-- The handler of `POST /api/run` on a fresh response: the tasks of the selected
models run concurrently, and when all have settled `done` is written and the
response ended. -/
def apiRun (P : Platform) (catalogue : List Model) (modelIds : List String)
    (invoke : ℕ → Model → AdapterRun) (sched : List ℕ) : Res :=
  let selected := selectModels catalogue modelIds
  let res := runTasks sched (tasksFrom P invoke 0 selected) ⟨false, []⟩
  (sseWrite res Event.done).end_

/-- The three provider families. -/
inductive Family where
  | anthropic
  | openai
  | google
deriving DecidableEq, Repr

/-- The family of a model: `anthropic`, `google`, and the OpenAI family for any
other provider. -/
def Family.ofProvider (provider : String) : Family :=
  if provider = "anthropic" then .anthropic
  else if provider = "google" then .google
  else .openai

/-- The adapter of a family. -/
def adapter (fam : Family) (P : Platform) (env : CallEnv) (model : Model)
    (prompt systemPrompt maxTokens temperature webSearch : JSVal) : AdapterRun :=
  match fam with
  | .anthropic => streamAnthropic P env model prompt systemPrompt maxTokens temperature webSearch
  | .openai => streamOpenAI P env model prompt systemPrompt maxTokens temperature webSearch
  | .google => streamGemini P env model prompt systemPrompt maxTokens temperature webSearch

/-- The adapter of a model: `streamAnthropic` for `anthropic`, `streamGemini` for
`google`, `streamOpenAI` otherwise. -/
def handler (P : Platform) (env : CallEnv) (model : Model)
    (prompt systemPrompt maxTokens temperature webSearch : JSVal) : AdapterRun :=
  adapter (Family.ofProvider model.provider) P env model prompt systemPrompt maxTokens
    temperature webSearch

/-- The environment variable that holds the credential of a family. -/
def keyName : Family → String
  | .anthropic => "ANTHROPIC_API_KEY"
  | .openai => "OPENAI_API_KEY"
  | .google => "GEMINI_API_KEY"

/-- The address an adapter calls. -/
def endpoint (fam : Family) (model : Model) : String :=
  match fam with
  | .anthropic => "https://api.anthropic.com/v1/messages"
  | .openai => "https://api.openai.com/v1/responses"
  | .google => "https://generativelanguage.googleapis.com/v1beta/models/" ++ model.id
      ++ ":streamGenerateContent?alt=sse"

/-- The request payload an adapter builds. -/
def requestBody (fam : Family) (model : Model)
    (prompt systemPrompt maxTokens temperature webSearch : JSVal) : JSVal :=
  match fam with
  | .anthropic => anthropicBody model prompt systemPrompt maxTokens temperature webSearch
  | .openai => openAIBody model prompt systemPrompt maxTokens temperature webSearch
  | .google => geminiBody model prompt systemPrompt maxTokens temperature webSearch

/-- The `temperature` field of a request payload (in `generationConfig` for the
Gemini family); `undefined` when the payload has none. -/
def payloadTemperature (fam : Family) (body : JSVal) : JSVal :=
  match fam with
  | .google => (body.optGet "generationConfig").optGet "temperature"
  | _ => body.optGet "temperature"

/-- The callback an adapter gives to `consumeSSE`. -/
def onLine (fam : Family) (P : Platform) (start now : ℤ) :
    AdapterState → List Char → Except JSError AdapterState :=
  match fam with
  | .anthropic => anthropicOnLine P start now
  | .openai => openAIOnLine P start now
  | .google => geminiOnLine P start now

/-- The `ttft` field of a `complete` event. -/
def Event.ttft? : Event → Option ℤ
  | .complete _ ttft _ _ _ _ _ => some ttft
  | _ => none

/-- The `tokensPerSecond` field of a `complete` event. -/
def Event.tokensPerSecond? : Event → Option ℚ
  | .complete _ _ _ _ _ tps _ => tps
  | _ => none

/-- The `cost` field of a `complete` event. -/
def Event.cost? : Event → Option ℚ
  | .complete _ _ _ _ _ _ c => c
  | _ => none

/-- The number `y` is `x` rounded to one decimal place: a multiple of one tenth at
most half a tenth away from `x`. -/
def RoundedToOneDecimal (x y : ℚ) : Prop := (∃ k : ℤ, y = (k : ℚ) / 10) ∧ |y - x| ≤ 1 / 20

/-! ## The frames of a stream, as the specification describes them -/

/-- The text fragment of a Family A frame: the `delta.text` of a
`content_block_delta` frame, when it is not empty. -/
def anthropicFragment (data : JSVal) : Option JSVal :=
  if (data.optGet "type").isStr "content_block_delta" then
    if ((data.optGet "delta").optGet "text").truthy then some ((data.optGet "delta").optGet "text")
    else none
  else none

/-- The message of a Family A `error` frame, `Anthropic stream error` when the
frame carries none. -/
def anthropicErrorMessage (data : JSVal) : Option JSVal :=
  if (data.optGet "type").isStr "error" then
    some (((data.optGet "error").optGet "message").or (.str "Anthropic stream error"))
  else none

/-- The text fragment of a Family B frame: the `delta` of a
`response.output_text.delta` frame, the empty string when the frame has none. -/
def openAIFragment (data : JSVal) : Option JSVal :=
  if (data.optGet "type").isStr "response.output_text.delta" then
    some ((data.optGet "delta").or (.str ""))
  else none

/-- The text fragment of a Family C frame: the text of the first part of the first
candidate, when there is one and it is not empty. -/
def geminiFragment (data : JSVal) : Option JSVal :=
  if (((((data.optGet "candidates").optFirst).optGet "content").optGet "parts").optFirst.optGet
      "text").truthy then
    some (((((data.optGet "candidates").optFirst).optGet "content").optGet "parts").optFirst.optGet
      "text")
  else none

/-- The frame of an event-data line: `JSON.parse` of what follows the marker,
`none` when it does not parse. -/
def frameOf (P : Platform) (line : List Char) : Option JSVal := P.parse (line.drop 6)

/-- The frame of an event-data line for `streamOpenAI`, which trims the payload. -/
def trimmedFrameOf (P : Platform) (line : List Char) : Option JSVal :=
  P.parse (jsTrim (line.drop 6))

/-- The text fragment an event-data line carries for an adapter, if any. -/
def lineFragment (fam : Family) (P : Platform) (line : List Char) : Option JSVal :=
  match fam with
  | .anthropic => (frameOf P line).bind anthropicFragment
  | .openai => (trimmedFrameOf P line).bind openAIFragment
  | .google => (frameOf P line).bind geminiFragment

/-- The error message an event-data line carries for an adapter, if any: only
Family A has `error` frames. -/
def lineError (fam : Family) (P : Platform) (line : List Char) : Option JSVal :=
  match fam with
  | .anthropic => (frameOf P line).bind anthropicErrorMessage
  | _ => none

/-- The concatenation, in order, of the contents of the events, each through
`ToString`; `none` when a coercion throws. -/
def concatContents (P : Platform) : List AdapterEvent → Option String
  | [] => some ""
  | ev :: evs =>
    match P.toStr ev.content, concatContents P evs with
    | .ok piece, some rest => some (piece ++ rest)
    | _, _ => none

/-- How `consumeSSE` ends after its callback ran over the lines: with the error
of the callback, or else with the failure of the read, if any. -/
def endOfStream {σ : Type} (r : σ × Option JSError) (failure : Option JSError) :
    σ × Option JSError :=
  match r with
  | (s, none) => (s, failure)
  | (s, some e) => (s, some e)

/-- What one line does to the variables of an adapter, for the fragment `frag` the
line carries: a fragment is appended to the output and emitted as a `chunk`, and
`ttft` is stamped if it was `null`; without a fragment neither changes. -/
def StepSpec (P : Platform) (start now : ℤ) (frag : Option JSVal) (st st' : AdapterState) :
    Prop :=
  match frag with
  | some c =>
    st'.events = st.events ++ [.chunk c]
      ∧ st'.ttft = stampTtft start now st.ttft
      ∧ ∃ piece, P.toStr c = .ok piece ∧ st'.output = st.output ++ piece
  | none => st'.events = st.events ∧ st'.ttft = st.ttft ∧ st'.output = st.output

/-- What the events and the accumulators of an adapter are after the lines `pre`,
for the fragment `frag` a line carries: the events are the fragments of the lines
in order, the output is the concatenation of their contents, and `ttft` is still
`null` while no event was emitted. -/
def ChunkInv (P : Platform) (frag : List Char → Option JSVal) (pre : List (List Char))
    (st : AdapterState) : Prop :=
  st.events = (pre.filterMap frag).map AdapterEvent.chunk
    ∧ concatContents P st.events = some st.output
    ∧ (st.events = [] → st.ttft = none)

/-- What the variables of an adapter are after the lines `pre`: the events and the
output as in `ChunkInv`, and `streamError` the message of the last `error` frame,
`null` when there was none. -/
def StreamInv (fam : Family) (P : Platform) (pre : List (List Char)) (st : AdapterState) :
    Prop :=
  ChunkInv P (lineFragment fam P) pre st
    ∧ st.streamError = ((pre.filterMap (lineError fam P)).getLast?).getD .null

/-- What an adapter does once the stream is consumed: `streamAnthropic` throws a
recorded `streamError`, and otherwise the adapter returns its result. -/
def afterStream (fam : Family) (P : Platform) (env : CallEnv) (st : AdapterState) :
    Except JSError AdapterResult :=
  match fam with
  | .anthropic =>
    if st.streamError.truthy then
      match P.toStr st.streamError with
      | .ok message => .error (mkError message)
      | .error e => .error e
    else .ok (adapterResult st env.start env.finish)
  | _ => .ok (adapterResult st env.start env.finish)

/-! ## Sample data -/

/-- A catalogue entry of the Anthropic family. -/
def modelA : Model := ⟨"a", "anthropic", 3, 15, false⟩

/-- A catalogue entry of the OpenAI family. -/
def modelB : Model := ⟨"b", "openai", 1, 2, true⟩

/-- An invocation cancelled before the first event: it rejects with an
`AbortError`. -/
def cancelledRun : AdapterRun := ⟨[], .error ⟨"AbortError", "This operation was aborted"⟩⟩

/-- An invocation that emits two fragments and succeeds. -/
def finishedRun : AdapterRun :=
  ⟨[.chunk (.str "Hel"), .chunk (.str "lo")], .ok ⟨120, 1500, .num 10, .num 30, "Hello"⟩⟩

/-- An invocation that fails with a provider error. -/
def failedRun : AdapterRun := ⟨[.chunk (.str "x")], .error ⟨"Error", "529: overloaded"⟩⟩

/-- The JSON text of a value built from `null`, booleans, strings without escapes,
arrays and objects (a number is written as its numerator). -/
def render : JSVal → List Char
  | .undefined => "undefined".data
  | .null => "null".data
  | .bool b => if b then "true".data else "false".data
  | .num q => (toString q.num).data
  | .str s => [Char.ofNat 34] ++ s.data ++ [Char.ofNat 34]
  | .arr xs => [Char.ofNat 91] ++ renderItems xs ++ [Char.ofNat 93]
  | .obj fields => [Char.ofNat 123] ++ renderFields fields ++ [Char.ofNat 125]
where
  /-- The items of an array, separated by commas. -/
  renderItems : List JSVal → List Char
    | [] => []
    | [x] => render x
    | x :: y :: rest => render x ++ [','] ++ renderItems (y :: rest)
  /-- The members of an object, separated by commas. -/
  renderFields : List (String × JSVal) → List Char
    | [] => []
    | [(k, v)] => [Char.ofNat 34] ++ k.data ++ [Char.ofNat 34, ':'] ++ render v
    | (k, v) :: f :: rest =>
      [Char.ofNat 34] ++ k.data ++ [Char.ofNat 34, ':'] ++ render v ++ [',']
        ++ renderFields (f :: rest)

/-- A platform whose `JSON.parse` knows the JSON text of the given frames. -/
def samplePlatform (frames : List JSVal) : Platform :=
  tablePlatform (frames.map (fun f => (render f, f)))

/-- The event stream of the given frames: one `data: ` line for each, followed by
an empty line. -/
def sseText (frames : List JSVal) : List Char :=
  frames.flatMap (fun f => dataMarker ++ render f ++ ['\n', '\n'])

/-- A response body that carries the frames, read in two chunks: the first 40
bytes, then the others. -/
def sampleBody (frames : List JSVal) : Body :=
  ⟨[((sseText frames).map Char.toNat).take 40, ((sseText frames).map Char.toNat).drop 40], none⟩

/-- An environment where the credentials are set and the provider answers 200 with
the given frames; the clock reads 1000, 1250 and 3000. -/
def sampleEnv (frames : List JSVal) : CallEnv where
  env := fun _ => some "secret"
  fetch := fun _ _ => .ok ⟨true, 200, .ok "", sampleBody frames⟩
  start := 1000
  firstFragment := 1250
  finish := 3000

/-- A Family A `content_block_delta` frame. -/
def deltaA (text : String) : JSVal :=
  .obj [("type", .str "content_block_delta"), ("index", .num 0),
    ("delta", .obj [("type", .str "text_delta"), ("text", .str text)])]

/-- A Family A `error` frame. -/
def errorA (message : String) : JSVal :=
  .obj [("type", .str "error"),
    ("error", .obj [("type", .str "overloaded_error"), ("message", .str message)])]

/-- A Family B `response.output_text.delta` frame. -/
def deltaB (text : String) : JSVal :=
  .obj [("type", .str "response.output_text.delta"), ("delta", .str text)]

/-- A Family B `response.output_text.delta` frame that has no `delta`. -/
def deltaWithoutText : JSVal := .obj [("type", .str "response.output_text.delta")]

/-- A Family C frame with one candidate of one part. -/
def frameC (text : String) : JSVal :=
  .obj [("candidates", .arr [.obj [("content", .obj [("parts", .arr [.obj [("text", .str text)]])])]])]

/-- A Family A stream: an `error` frame, then a text frame. -/
def errorThenText : List JSVal := [errorA "Overloaded", deltaA "late"]

/-- A model flagged as not accepting a temperature. -/
def modelNoTemperature : Model := ⟨"m", "anthropic", 3, 15, true⟩

/-- Every event of the queue carries the model identifier `k`. -/
def Owns (q : List Event) (k : String) : Prop := ∀ e ∈ q, e.modelId? = some k

/-! # Theorems -/

/-! ## Chunk independence of `consumeSSE` -/

theorem decode_append (P : Platform) (a b : List Byte) (d : P.DecState) :
    P.decode d (a ++ b)
      = ((P.decode (P.decode d a).1 b).1, (P.decode d a).2 ++ (P.decode (P.decode d a).1 b).2) := by
  induction a generalizing d with
  | nil => simp [Platform.decode]
  | cons x xs ih => simp [Platform.decode, ih, List.append_assoc]

theorem splitLines_ne_nil (s : List Char) : splitLines s ≠ [] := by
  cases s with
  | nil => simp [splitLines]
  | cons c cs =>
    simp only [splitLines]
    split_ifs
    · simp
    · split <;> simp

theorem splitLines_append (a b : List Char) :
    splitLines (a ++ b)
      = (splitLines a).dropLast ++ splitLines ((splitLines a).getLastD [] ++ b) := by
  induction a with
  | nil => simp [splitLines]
  | cons c cs ih =>
    have hne := splitLines_ne_nil cs
    by_cases hc : c = '\n'
    · obtain ⟨seg, segs, hs⟩ := List.exists_cons_of_ne_nil hne
      simp [splitLines, hc, ih, hs, List.dropLast]
    · obtain ⟨seg, segs, hs⟩ := List.exists_cons_of_ne_nil hne
      cases segs with
      | nil =>
        simp [hs] at ih
        simp [splitLines, hc, ih, hs]
      | cons seg2 segs2 =>
        simp [hs] at ih
        simp [splitLines, hc, ih, hs]

theorem deliver_append {σ : Type} (f : σ → List Char → Except JSError σ)
    (l₁ l₂ : List (List Char)) (s : σ) :
    deliver f (l₁ ++ l₂) s
      = match deliver f l₁ s with
        | (s', none) => deliver f l₂ s'
        | (s', some e) => (s', some e) := by
  induction l₁ generalizing s with
  | nil => simp [deliver]
  | cons x xs ih =>
    simp only [List.cons_append, deliver]
    cases f s x with
    | ok s' => simp [ih]
    | error e => simp

theorem getLastD_append_of_ne_nil {α : Type} (l₁ l₂ : List α) (a : α) (h : l₂ ≠ []) :
    (l₁ ++ l₂).getLastD a = l₂.getLastD a := by
  obtain ⟨x, xs, rfl⟩ := List.exists_cons_of_ne_nil h
  induction l₁ with
  | nil => rfl
  | cons y ys ih =>
    cases ys with
    | nil => simp [List.getLastD, List.getLast]
    | cons z zs => simp [List.getLastD, List.getLast]

theorem consumeLoop_merge {σ : Type} (P : Platform) (f : σ → List Char → Except JSError σ)
    (fl : Option JSError) (a b : List Byte) (rest : List (List Byte)) (d : P.DecState)
    (buf : List Char) (s : σ) :
    consumeLoop P f fl (a :: b :: rest) d buf s = consumeLoop P f fl ((a ++ b) :: rest) d buf s := by
  have h2 := splitLines_ne_nil
    ((splitLines (buf ++ (P.decode d a).2)).getLastD [] ++ (P.decode (P.decode d a).1 b).2)
  simp only [consumeLoop, decode_append]
  rw [← List.append_assoc, splitLines_append (buf ++ (P.decode d a).2),
    List.dropLast_append_of_ne_nil _ h2, List.filter_append, deliver_append]
  rcases deliver f (List.filter startsWithData (splitLines (buf ++ (P.decode d a).2)).dropLast) s
    with ⟨s1, _ | e⟩
  · simp only
    rw [getLastD_append_of_ne_nil _ _ _ h2]
  · simp only

theorem consumeLoop_join {σ : Type} (P : Platform) (f : σ → List Char → Except JSError σ)
    (fl : Option JSError) (rest : List (List Byte)) (a : List Byte) (d : P.DecState)
    (buf : List Char) (s : σ) :
    consumeLoop P f fl (a :: rest) d buf s = consumeLoop P f fl [a ++ rest.flatten] d buf s := by
  induction rest generalizing a with
  | nil => simp
  | cons b bs ih => rw [consumeLoop_merge, ih, List.flatten_cons, List.append_assoc]

theorem consumeSSE_flatten {σ : Type} (P : Platform) (f : σ → List Char → Except JSError σ)
    (body : Body) (s : σ) :
    consumeSSE P f body s = consumeSSE P f ⟨[body.chunks.flatten], body.failure⟩ s := by
  obtain ⟨chunks, fl⟩ := body
  cases chunks with
  | nil =>
    cases fl <;> simp [consumeSSE, consumeLoop, Platform.decode, splitLines, deliver]
  | cons a rest => simpa [consumeSSE] using consumeLoop_join P f fl rest a P.decInit [] s

/-- C3: for every streaming decoder, every byte stream and every partition of it
into successive chunks (empty chunks included), `consumeSSE` hands to `onLine` the
same ordered sequence of lines as when the whole stream arrives as one chunk. -/
theorem consumeSSE_chunking_independent (P : Platform) (body : Body) :
    sseLines P body = sseLines P ⟨[body.chunks.flatten], body.failure⟩ := by
  unfold sseLines
  rw [consumeSSE_flatten]

/-! ## The scheduler of the orchestrator -/

theorem foldl_sseWrite_open (l w : List Event) :
    l.foldl sseWrite ⟨false, w⟩ = ⟨false, w ++ l⟩ := by
  induction l generalizing w with
  | nil => simp
  | cons e es ih => simp [sseWrite, ih]

theorem stepTask_perm {i : ℕ} {qs qs' : List (List Event)} {e : Event}
    (h : stepTask i qs = some (e, qs')) : qs.flatten.Perm (e :: qs'.flatten) := by
  induction qs generalizing i qs' with
  | nil => simp [stepTask] at h
  | cons q rest ih =>
    cases i with
    | zero =>
      cases q with
      | nil => simp [stepTask] at h
      | cons x xs =>
        simp only [stepTask, Option.some.injEq, Prod.mk.injEq] at h
        obtain ⟨rfl, rfl⟩ := h
        simp
    | succ j =>
      simp only [stepTask] at h
      cases hj : stepTask j rest with
      | none => simp [hj] at h
      | some r =>
        obtain ⟨e1, rest1⟩ := r
        simp only [hj, Option.some.injEq, Prod.mk.injEq] at h
        obtain ⟨rfl, rfl⟩ := h
        have := ih hj
        simp only [List.flatten_cons]
        exact (List.Perm.append_left q this).trans List.perm_middle

theorem stepTask_owns {i : ℕ} {qs qs' : List (List Event)} {ks : List String} {e : Event}
    (hown : List.Forall₂ Owns qs ks) (h : stepTask i qs = some (e, qs')) :
    List.Forall₂ Owns qs' ks ∧ ∃ k ∈ ks, e.modelId? = some k := by
  induction hown generalizing i qs' with
  | nil => simp [stepTask] at h
  | @cons q k rest ks' hq hrest ih =>
    cases i with
    | zero =>
      cases q with
      | nil => simp [stepTask] at h
      | cons x xs =>
        simp only [stepTask, Option.some.injEq, Prod.mk.injEq] at h
        obtain ⟨rfl, rfl⟩ := h
        refine ⟨List.Forall₂.cons (fun e he => hq e (List.mem_cons_of_mem _ he)) hrest, k, ?_, ?_⟩
        · simp
        · exact hq _ (List.mem_cons_self _ _)
    | succ j =>
      simp only [stepTask] at h
      cases hj : stepTask j rest with
      | none => simp [hj] at h
      | some r =>
        obtain ⟨e1, rest1⟩ := r
        simp only [hj, Option.some.injEq, Prod.mk.injEq] at h
        obtain ⟨rfl, rfl⟩ := h
        obtain ⟨h1, k1, hk1, he1⟩ := ih hj
        exact ⟨List.Forall₂.cons hq h1, k1, List.mem_cons_of_mem _ hk1, he1⟩

theorem filter_tagged_of_owns {q : List Event} {k k' : String} (hq : Owns q k) (hne : k ≠ k') :
    q.filter (Event.taggedWith k') = [] := by
  rw [List.filter_eq_nil_iff]
  intro e he
  simp [Event.taggedWith, hq e he, hne]

theorem stepTask_filter {i : ℕ} {qs qs' : List (List Event)} {ks : List String} {e : Event}
    (hown : List.Forall₂ Owns qs ks) (k : String) (hk : ks.count k ≤ 1)
    (h : stepTask i qs = some (e, qs')) :
    qs.flatten.filter (Event.taggedWith k)
      = if e.taggedWith k then e :: qs'.flatten.filter (Event.taggedWith k)
        else qs'.flatten.filter (Event.taggedWith k) := by
  induction hown generalizing i qs' with
  | nil => simp [stepTask] at h
  | @cons q k0 rest ks' hq hrest ih =>
    cases i with
    | zero =>
      cases q with
      | nil => simp [stepTask] at h
      | cons x xs =>
        simp only [stepTask, Option.some.injEq, Prod.mk.injEq] at h
        obtain ⟨rfl, rfl⟩ := h
        by_cases hx : x.taggedWith k <;> simp [hx, List.filter_cons]
    | succ j =>
      simp only [stepTask] at h
      cases hj : stepTask j rest with
      | none => simp [hj] at h
      | some r =>
        obtain ⟨e1, rest1⟩ := r
        simp only [hj, Option.some.injEq, Prod.mk.injEq] at h
        obtain ⟨rfl, rfl⟩ := h
        have hk' : ks'.count k ≤ 1 :=
          le_trans ((List.sublist_cons_self k0 ks').count_le k) hk
        have hrec := ih hk' hj
        obtain ⟨_, k1, hk1, he1⟩ := stepTask_owns hrest hj
        simp only [List.flatten_cons, List.filter_append, hrec]
        by_cases hx : e1.taggedWith k
        · have hkk : k1 = k := by simpa [Event.taggedWith, he1] using hx
          have hne : k0 ≠ k := by
            rintro rfl
            have h1 : 1 ≤ ks'.count k0 := List.one_le_count_iff.mpr (hkk ▸ hk1)
            simp only [List.count_cons_self] at hk
            omega
          simp [hx, filter_tagged_of_owns hq hne]
        · simp [hx]

theorem stepTask_getElem? {i : ℕ} {qs qs' : List (List Event)} {e : Event}
    (h : stepTask i qs = some (e, qs')) (j : ℕ) (q : List Event) (hq : qs[j]? = some q) :
    ∃ q', qs'[j]? = some q' ∧ (q = q' ∨ q = e :: q') := by
  induction qs generalizing i j qs' with
  | nil => simp [stepTask] at h
  | cons q0 rest ih =>
    cases i with
    | zero =>
      cases q0 with
      | nil => simp [stepTask] at h
      | cons x xs =>
        simp only [stepTask, Option.some.injEq, Prod.mk.injEq] at h
        obtain ⟨rfl, rfl⟩ := h
        cases j with
        | zero =>
          simp only [List.getElem?_cons_zero, Option.some.injEq] at hq
          exact ⟨xs, by simp, Or.inr hq.symm⟩
        | succ j => exact ⟨q, by simpa using hq, Or.inl rfl⟩
    | succ i =>
      simp only [stepTask] at h
      cases hi : stepTask i rest with
      | none => simp [hi] at h
      | some r =>
        obtain ⟨e1, rest1⟩ := r
        simp only [hi, Option.some.injEq, Prod.mk.injEq] at h
        obtain ⟨rfl, rfl⟩ := h
        cases j with
        | zero => exact ⟨q, by simpa using hq, Or.inl rfl⟩
        | succ j =>
          simp only [List.getElem?_cons_succ] at hq
          obtain ⟨q', hq', hrel⟩ := ih hi j hq
          exact ⟨q', by simpa using hq', hrel⟩

theorem sublist_flatten_of_getElem? (qs : List (List Event)) (j : ℕ) (q : List Event)
    (hq : qs[j]? = some q) : q.Sublist qs.flatten :=
  List.sublist_flatten_of_mem (List.getElem?_mem hq)

theorem runTasks_open (sched : List ℕ) (qs : List (List Event)) (w : List Event) :
    ∃ body, runTasks sched qs ⟨false, w⟩ = ⟨false, w ++ body⟩ ∧ body.Perm qs.flatten
      ∧ (∀ ks : List String, List.Forall₂ Owns qs ks → ∀ k, ks.count k ≤ 1 →
          body.filter (Event.taggedWith k) = qs.flatten.filter (Event.taggedWith k))
      ∧ ∀ (j : ℕ) (q : List Event), qs[j]? = some q → q.Sublist body := by
  induction sched generalizing qs w with
  | nil =>
    exact ⟨qs.flatten, by simp [runTasks, foldl_sseWrite_open], List.Perm.refl _, by simp,
      sublist_flatten_of_getElem? qs⟩
  | cons i sched ih =>
    simp only [runTasks]
    cases hstep : stepTask i qs with
    | none => simpa using ih qs w
    | some r =>
      obtain ⟨e, qs'⟩ := r
      obtain ⟨body, hrun, hperm, hfilter, hsub⟩ := ih qs' (w ++ [e])
      refine ⟨e :: body, ?_, ?_, ?_, ?_⟩
      · simpa [sseWrite] using hrun
      · exact (List.Perm.cons e hperm).trans (stepTask_perm hstep).symm
      · intro ks hown k hk
        rw [stepTask_filter hown k hk hstep, List.filter_cons,
          hfilter ks (stepTask_owns hown hstep).1 k hk]
      · intro j q hq
        obtain ⟨q', hq', hrel⟩ := stepTask_getElem? hstep j q hq
        rcases hrel with rfl | rfl
        · exact (hsub j q hq').trans (List.sublist_cons_self e body)
        · exact (hsub j q' hq').cons₂ e

theorem completeEvent_ok (P : Platform) (m : Model) (r : AdapterResult) (ev : Event)
    (h : completeEvent P m r = .ok ev) :
    ev.modelId? = some m.id ∧ ev.isStart = false ∧ ev.isTerminal = true
      ∧ ev.ttft? = some r.ttft := by
  unfold completeEvent at h
  simp only [bind, Except.bind, pure, Except.pure] at h
  cases h1 : P.toNumber r.inputTokens with
  | error e => simp [h1] at h
  | ok i =>
    cases h2 : P.toNumber r.outputTokens with
    | error e => simp [h1, h2] at h
    | ok o =>
      simp only [h1, h2] at h
      split_ifs at h
      · simp only [Except.ok.injEq] at h
        subst h
        exact ⟨rfl, rfl, rfl, rfl⟩
      · simp only [Except.ok.injEq] at h
        subst h
        exact ⟨rfl, rfl, rfl, rfl⟩

theorem taskEvents_owns (P : Platform) (m : Model) (run : AdapterRun) :
    Owns (taskEvents P m run) m.id := by
  intro e he
  simp only [taskEvents, List.mem_append, List.mem_singleton, List.mem_map] at he
  rcases he with (rfl | ⟨ev, _, rfl⟩) | he
  · rfl
  · rfl
  · cases hs : (do let result ← run.settle; completeEvent P m result) with
    | ok ev =>
      have hc : ∃ r, completeEvent P m r = .ok ev := by
        cases hr : run.settle with
        | error err => simp [hr, bind, Except.bind] at hs
        | ok r => exact ⟨r, by simpa [hr, bind, Except.bind] using hs⟩
      obtain ⟨r, hr⟩ := hc
      simp only [hs, List.mem_singleton] at he
      subst he
      exact (completeEvent_ok P m r _ hr).1
    | error err =>
      simp only [hs] at he
      split_ifs at he
      · simp only [List.mem_singleton] at he
        subst he
        rfl
      · simp at he

theorem tasksFrom_owns (P : Platform) (invoke : ℕ → Model → AdapterRun) (i : ℕ)
    (ms : List Model) :
    List.Forall₂ Owns (tasksFrom P invoke i ms) (ms.map (fun m => m.id)) := by
  induction ms generalizing i with
  | nil => simp [tasksFrom]
  | cons m ms ih => exact List.Forall₂.cons (taskEvents_owns P m _) (ih (i + 1))

theorem filter_taskEvents_self (P : Platform) (m : Model) (run : AdapterRun) :
    (taskEvents P m run).filter (Event.taggedWith m.id) = taskEvents P m run := by
  rw [List.filter_eq_self]
  intro e he
  simp [Event.taggedWith, taskEvents_owns P m run e he]

theorem filter_tasksFrom_of_not_mem (P : Platform) (invoke : ℕ → Model → AdapterRun) (i : ℕ)
    (ms : List Model) (k : String) (hk : k ∉ ms.map (fun m => m.id)) :
    (tasksFrom P invoke i ms).flatten.filter (Event.taggedWith k) = [] := by
  induction ms generalizing i with
  | nil => simp [tasksFrom]
  | cons m ms ih =>
    simp only [List.map_cons, List.mem_cons, not_or] at hk
    simp only [tasksFrom, List.flatten_cons, List.filter_append, ih (i + 1) hk.2,
      List.append_nil]
    exact filter_tagged_of_owns (taskEvents_owns P m _) (fun h => hk.1 h.symm)

theorem filter_tasksFrom_of_getElem? (P : Platform) (invoke : ℕ → Model → AdapterRun) (i : ℕ)
    (ms : List Model) (j : ℕ) (m : Model) (hj : ms[j]? = some m)
    (hone : (ms.map (fun m => m.id)).count m.id ≤ 1) :
    (tasksFrom P invoke i ms).flatten.filter (Event.taggedWith m.id)
      = taskEvents P m (invoke (i + j) m) := by
  induction ms generalizing i j with
  | nil => simp at hj
  | cons m0 ms ih =>
    simp only [tasksFrom, List.flatten_cons, List.filter_append]
    cases j with
    | zero =>
      simp only [List.getElem?_cons_zero, Option.some.injEq] at hj
      subst hj
      have hnot : m0.id ∉ ms.map (fun m => m.id) := by
        intro hmem
        have h1 : 1 ≤ (ms.map (fun m => m.id)).count m0.id := List.one_le_count_iff.mpr hmem
        simp only [List.map_cons, List.count_cons_self] at hone
        omega
      rw [filter_taskEvents_self, filter_tasksFrom_of_not_mem P invoke (i + 1) ms _ hnot]
      simp
    | succ j =>
      simp only [List.getElem?_cons_succ] at hj
      have hmem : m.id ∈ ms.map (fun m => m.id) :=
        List.mem_map.mpr ⟨m, List.getElem?_mem hj, rfl⟩
      have h1 : 1 ≤ (ms.map (fun m => m.id)).count m.id := List.one_le_count_iff.mpr hmem
      have hne : m0.id ≠ m.id := by
        intro h
        rw [List.map_cons, h, List.count_cons_self] at hone
        omega
      have hone' : (ms.map (fun m => m.id)).count m.id ≤ 1 :=
        le_trans ((List.sublist_cons_self m0.id _).count_le m.id) hone
      rw [filter_tagged_of_owns (taskEvents_owns P m0 _) hne, ih (i + 1) j hj hone']
      simp [Nat.add_assoc, Nat.add_comm 1 j]

theorem selectModels_ids (catalogue : List Model) (modelIds : List String) :
    (selectModels catalogue modelIds).map (fun m => m.id)
      = modelIds.filter (fun id => (catalogue.find? (fun m => decide (m.id = id))).isSome) := by
  induction modelIds with
  | nil => simp [selectModels]
  | cons id ids ih =>
    simp only [selectModels] at ih
    cases hf : catalogue.find? (fun m => decide (m.id = id)) with
    | none => simp [selectModels, List.filterMap_cons, hf, List.filter_cons, ih]
    | some m =>
      have := List.find?_some hf
      simp only [decide_eq_true_eq] at this
      simp [selectModels, List.filterMap_cons, hf, List.filter_cons, ih, this]

theorem filter_isStart_taskEvents (P : Platform) (m : Model) (run : AdapterRun) :
    (taskEvents P m run).filter Event.isStart = [Event.start m.id] := by
  simp only [taskEvents, List.filter_append, List.filter_map]
  have hchunks : ∀ l : List AdapterEvent,
      l.filter (Event.isStart ∘ fun ev => Event.chunk m.id ev.content) = [] := by
    intro l
    simp [List.filter_eq_nil_iff, Event.isStart]
  rw [hchunks]
  cases hs : (do let result ← run.settle; completeEvent P m result) with
  | ok ev =>
    have hc : ∃ r, completeEvent P m r = .ok ev := by
      cases hr : run.settle with
      | error err => simp [hr, bind, Except.bind] at hs
      | ok r => exact ⟨r, by simpa [hr, bind, Except.bind] using hs⟩
    obtain ⟨r, hr⟩ := hc
    have hns := (completeEvent_ok P m r _ hr).2.1
    simp only [Event.isStart] at hns
    simp [Event.isStart, hns]
  | error err => by_cases h : err.name = "AbortError" <;> simp [Event.isStart, h]

theorem length_filter_isStart_tasksFrom (P : Platform) (invoke : ℕ → Model → AdapterRun)
    (i : ℕ) (ms : List Model) :
    ((tasksFrom P invoke i ms).flatten.filter Event.isStart).length = ms.length := by
  induction ms generalizing i with
  | nil => simp [tasksFrom]
  | cons m ms ih =>
    simp only [tasksFrom, List.flatten_cons, List.filter_append, filter_isStart_taskEvents,
      List.length_append, ih (i + 1)]
    simp [Nat.add_comm]

theorem length_filter_start_of_tasksFrom (P : Platform) (invoke : ℕ → Model → AdapterRun)
    (i : ℕ) (ms : List Model) (k : String) :
    ((tasksFrom P invoke i ms).flatten.filter
        (fun e => e.taggedWith k && e.isStart)).length
      = (ms.map (fun m => m.id)).count k := by
  induction ms generalizing i with
  | nil => simp [tasksFrom]
  | cons m ms ih =>
    have h1 : (taskEvents P m (invoke i m)).filter (fun e => e.taggedWith k && e.isStart)
        = if m.id = k then [Event.start m.id] else [] := by
      have hsplit : (taskEvents P m (invoke i m)).filter (fun e => e.taggedWith k && e.isStart)
          = ((taskEvents P m (invoke i m)).filter Event.isStart).filter (Event.taggedWith k) := by
        rw [List.filter_filter]
      rw [hsplit, filter_isStart_taskEvents]
      by_cases hk : m.id = k <;> simp [Event.taggedWith, Event.modelId?, hk]
    simp only [tasksFrom, List.flatten_cons, List.filter_append, h1, List.length_append,
      ih (i + 1), List.map_cons, List.count_cons]
    by_cases hk : m.id = k <;> simp [hk, Nat.add_comm]

theorem count_selectModels_ids (catalogue : List Model) (modelIds : List String) (k : String)
    (m : Model) (hk : catalogue.find? (fun m => decide (m.id = k)) = some m) :
    ((selectModels catalogue modelIds).map (fun m => m.id)).count k = modelIds.count k := by
  rw [selectModels_ids]
  exact List.count_filter (by simp [hk])

theorem tasksFrom_getElem? (P : Platform) (invoke : ℕ → Model → AdapterRun) (i : ℕ)
    (ms : List Model) (j : ℕ) (m : Model) (hj : ms[j]? = some m) :
    (tasksFrom P invoke i ms)[j]? = some (taskEvents P m (invoke (i + j) m)) := by
  induction ms generalizing i j with
  | nil => simp at hj
  | cons m0 ms ih =>
    cases j with
    | zero =>
      simp only [List.getElem?_cons_zero, Option.some.injEq] at hj
      subst hj
      simp [tasksFrom]
    | succ j =>
      simp only [List.getElem?_cons_succ] at hj
      simp only [tasksFrom, List.getElem?_cons_succ]
      rw [ih (i + 1) j hj]
      simp [Nat.add_assoc, Nat.add_comm 1 j]

theorem apiRun_eq (P : Platform) (catalogue : List Model) (modelIds : List String)
    (invoke : ℕ → Model → AdapterRun) (sched : List ℕ) :
    ∃ body, apiRun P catalogue modelIds invoke sched = ⟨true, body ++ [Event.done]⟩
      ∧ body.Perm (tasksFrom P invoke 0 (selectModels catalogue modelIds)).flatten
      ∧ (∀ ks : List String,
          List.Forall₂ Owns (tasksFrom P invoke 0 (selectModels catalogue modelIds)) ks →
          ∀ k, ks.count k ≤ 1 →
          body.filter (Event.taggedWith k)
            = (tasksFrom P invoke 0 (selectModels catalogue modelIds)).flatten.filter
                (Event.taggedWith k))
      ∧ ∀ j m, (selectModels catalogue modelIds)[j]? = some m →
          (taskEvents P m (invoke j m)).Sublist body := by
  obtain ⟨body, hrun, hperm, hfilter, hsub⟩ :=
    runTasks_open sched (tasksFrom P invoke 0 (selectModels catalogue modelIds)) []
  refine ⟨body, ?_, hperm, hfilter, ?_⟩
  · simp only [apiRun, hrun]
    simp [sseWrite, Res.end_]
  · intro j m hj
    have := hsub j _ (tasksFrom_getElem? P invoke 0 _ j m hj)
    simpa using this

/-! ## The events of a run -/

/-- C1, counterexample. A cancelled invocation (it rejects with an `AbortError`)
leaves its model with a `start` and no terminal event: the whole stream is `start`,
`done`. And a request that names the same model twice gets two tasks, hence two
`start` events with that model. -/
theorem apiRun_terminal_pair_counterexample :
    (apiRun (samplePlatform []) [modelA] ["a"] (fun _ _ => cancelledRun) []).written
        = [Event.start "a", Event.done]
      ∧ ((apiRun (samplePlatform []) [modelA] ["a"] (fun _ _ => cancelledRun) []).written.filter
          (fun e => e.taggedWith "a" && e.isTerminal)).length = 0
      ∧ ((apiRun (samplePlatform []) [modelA] ["a", "a"] (fun _ _ => finishedRun)
            [0, 1]).written.filter
          (fun e => e.taggedWith "a" && e.isStart)).length = 2 := by
  refine ⟨rfl, ?_, ?_⟩ <;> decide

/-- C1, amended. For every catalogue, every request, every way the invocations
settle and every schedule of the tasks. The events of the stream that carry the
identifier of a resolved model which the request names once are, in this order,
one `start`, the `chunk` events of its invocation, and then what the `try` block of
its task ends with: one `complete` on success, one `error` on an error whose name
is not `AbortError`, and nothing on an `AbortError` (a cancelled invocation). An
identifier that does not resolve in the catalogue has no event; the stream has as
many `start` events as the request has resolvable identifiers, and as many `start`
events with a resolved identifier as the request names it. And whatever the
request names twice, the events of each task occur in the stream in the order
`start`, `chunk` events, terminal event. -/
theorem apiRun_events_of_each_model (P : Platform) (catalogue : List Model)
    (modelIds : List String) (invoke : ℕ → Model → AdapterRun) (sched : List ℕ) :
    (∀ j m, (selectModels catalogue modelIds)[j]? = some m → modelIds.count m.id = 1 →
      (apiRun P catalogue modelIds invoke sched).written.filter (Event.taggedWith m.id)
        = [Event.start m.id]
          ++ (invoke j m).events.map (fun ev => Event.chunk m.id ev.content)
          ++ (match (do let result ← (invoke j m).settle; completeEvent P m result) with
              | .ok complete => [complete]
              | .error err =>
                if err.name ≠ "AbortError" then [Event.error m.id err.message] else []))
    ∧ (∀ id, catalogue.find? (fun m => decide (m.id = id)) = none →
        (apiRun P catalogue modelIds invoke sched).written.filter (Event.taggedWith id) = [])
    ∧ ((apiRun P catalogue modelIds invoke sched).written.filter Event.isStart).length
        = (selectModels catalogue modelIds).length
    ∧ (∀ id m, catalogue.find? (fun m => decide (m.id = id)) = some m →
        ((apiRun P catalogue modelIds invoke sched).written.filter
          (fun e => e.taggedWith id && e.isStart)).length = modelIds.count id)
    ∧ (∀ j m, (selectModels catalogue modelIds)[j]? = some m →
        ([Event.start m.id]
          ++ (invoke j m).events.map (fun ev => Event.chunk m.id ev.content)
          ++ (match (do let result ← (invoke j m).settle; completeEvent P m result) with
              | .ok complete => [complete]
              | .error err =>
                if err.name ≠ "AbortError" then [Event.error m.id err.message] else [])).Sublist
          (apiRun P catalogue modelIds invoke sched).written) := by
  obtain ⟨body, hrun, hperm, hfilter, htask⟩ := apiRun_eq P catalogue modelIds invoke sched
  have hown := tasksFrom_owns P invoke 0 (selectModels catalogue modelIds)
  have hdone : ∀ k, [Event.done].filter (Event.taggedWith k) = [] := fun k => rfl
  have hsub : ∀ k, ((selectModels catalogue modelIds).map (fun m => m.id)).count k
      ≤ modelIds.count k := by
    intro k
    rw [selectModels_ids]
    exact (List.filter_sublist _).count_le k
  refine ⟨?_, ?_, ?_, ?_, ?_⟩
  · intro j m hj hone
    have hone' : ((selectModels catalogue modelIds).map (fun m => m.id)).count m.id ≤ 1 :=
      hone ▸ hsub m.id
    rw [hrun]
    simp only [List.filter_append, hdone, List.append_nil]
    rw [hfilter _ hown m.id hone', filter_tasksFrom_of_getElem? P invoke 0 _ j m hj hone',
      Nat.zero_add]
    rfl
  · intro id hid
    have hnot : id ∉ (selectModels catalogue modelIds).map (fun m => m.id) := by
      rw [selectModels_ids]
      simp [hid]
    rw [hrun]
    simp only [List.filter_append, hdone, List.append_nil]
    rw [hfilter _ hown id (by rw [List.count_eq_zero.mpr hnot]; exact Nat.zero_le _),
      filter_tasksFrom_of_not_mem P invoke 0 _ id hnot]
  · rw [hrun]
    simp only [List.filter_append]
    have : [Event.done].filter Event.isStart = [] := rfl
    rw [this, List.append_nil, (hperm.filter _).length_eq, length_filter_isStart_tasksFrom]
  · intro id m hid
    rw [hrun]
    simp only [List.filter_append]
    have : [Event.done].filter (fun e => e.taggedWith id && e.isStart) = [] := rfl
    rw [this, List.append_nil, (hperm.filter _).length_eq, length_filter_start_of_tasksFrom,
      count_selectModels_ids catalogue modelIds id m hid]
  · intro j m hj
    rw [hrun]
    exact (htask j m hj).trans (List.sublist_append_left body [Event.done])

/-- C1, amended, at a request with two valid identifiers and an unknown one. -/
theorem apiRun_events_of_each_model_witness :
    ["a", "zzz", "b"].count modelA.id = 1
      ∧ ((apiRun (samplePlatform []) [modelA, modelB] ["a", "zzz", "b"]
            (fun j _ => if j = 0 then finishedRun else failedRun) [1, 0, 1]).written.filter
          (Event.taggedWith "a") = taskEvents (samplePlatform []) modelA finishedRun)
      ∧ ((apiRun (samplePlatform []) [modelA, modelB] ["a", "zzz", "b"]
            (fun j _ => if j = 0 then finishedRun else failedRun) [1, 0, 1]).written.filter
          (Event.taggedWith "zzz") = [])
      ∧ ((apiRun (samplePlatform []) [modelA, modelB] ["a", "zzz", "b"]
            (fun j _ => if j = 0 then finishedRun else failedRun) [1, 0, 1]).written.filter
          Event.isStart).length = 2 :=
  ⟨by decide,
    (apiRun_events_of_each_model (samplePlatform []) [modelA, modelB] ["a", "zzz", "b"]
      (fun j _ => if j = 0 then finishedRun else failedRun) [1, 0, 1]).1 0 modelA rfl
      (by decide),
    (apiRun_events_of_each_model (samplePlatform []) [modelA, modelB] ["a", "zzz", "b"]
      (fun j _ => if j = 0 then finishedRun else failedRun) [1, 0, 1]).2.1 "zzz" rfl,
    (apiRun_events_of_each_model (samplePlatform []) [modelA, modelB] ["a", "zzz", "b"]
      (fun j _ => if j = 0 then finishedRun else failedRun) [1, 0, 1]).2.2.1⟩

/-- C2. For every request, every way the invocations settle and every schedule:
the stream is the events of the tasks, all of them and none of them a `done`,
followed by one `done`; the response is then ended, so that a later `sseWrite`
writes nothing. -/
theorem apiRun_done_once_and_last (P : Platform) (catalogue : List Model)
    (modelIds : List String) (invoke : ℕ → Model → AdapterRun) (sched : List ℕ) :
    ∃ body, (apiRun P catalogue modelIds invoke sched).written = body ++ [Event.done]
      ∧ (∀ e ∈ body, e.isDone = false)
      ∧ body.Perm (tasksFrom P invoke 0 (selectModels catalogue modelIds)).flatten
      ∧ ((apiRun P catalogue modelIds invoke sched).written.filter Event.isDone).length = 1
      ∧ (apiRun P catalogue modelIds invoke sched).written.getLast? = some Event.done
      ∧ (apiRun P catalogue modelIds invoke sched).writableEnded = true
      ∧ ∀ e, sseWrite (apiRun P catalogue modelIds invoke sched) e
          = apiRun P catalogue modelIds invoke sched := by
  obtain ⟨body, hrun, hperm, -, -⟩ := apiRun_eq P catalogue modelIds invoke sched
  have hnot : ∀ e ∈ body, e.isDone = false := by
    intro e he
    have hmem := hperm.subset he
    obtain ⟨q, hq, heq⟩ := List.mem_flatten.mp hmem
    obtain ⟨k, -, hk⟩ : ∃ k ∈ (selectModels catalogue modelIds).map (fun m => m.id), Owns q k := by
      have hown := tasksFrom_owns P invoke 0 (selectModels catalogue modelIds)
      generalize tasksFrom P invoke 0 (selectModels catalogue modelIds) = qs at hown hq
      generalize (selectModels catalogue modelIds).map (fun m => m.id) = ks at hown
      induction hown with
      | nil => simp at hq
      | @cons q0 k0 qs0 ks0 h0 _ ih =>
        rcases List.mem_cons.mp hq with rfl | hq'
        · exact ⟨k0, List.mem_cons_self _ _, h0⟩
        · obtain ⟨k, hk, hqk⟩ := ih hq'
          exact ⟨k, List.mem_cons_of_mem _ hk, hqk⟩
    have := hk e heq
    cases e <;> simp_all [Event.modelId?, Event.isDone]
  refine ⟨body, by rw [hrun], hnot, hperm, ?_, ?_, by rw [hrun], ?_⟩
  · rw [hrun]
    have h0 : body.filter Event.isDone = [] := by
      rw [List.filter_eq_nil_iff]
      intro e he
      simp [hnot e he]
    simp [List.filter_append, h0, Event.isDone]
  · rw [hrun]
    simp
  · intro e
    rw [hrun]
    simp [sseWrite]

/-! ## The metrics of the `complete` event -/

theorem jsRound_rounded (x : ℚ) : RoundedToOneDecimal x ((jsRound (x * 10) : ℚ) / 10) := by
  refine ⟨⟨jsRound (x * 10), rfl⟩, ?_⟩
  have h1 := Int.floor_le (x * 10 + 1 / 2)
  have h2 := Int.lt_floor_add_one (x * 10 + 1 / 2)
  unfold jsRound
  rw [abs_le]
  constructor <;> linarith

theorem completeEvent_num (P : Platform) (model : Model) (ttft totalTime : ℤ)
    (inputTokens outputTokens : ℚ) (output : String) :
    completeEvent P model ⟨ttft, totalTime, .num inputTokens, .num outputTokens, output⟩
      = .ok (.complete model.id ttft totalTime (.num inputTokens) (.num outputTokens)
          (some (if 0 < totalTime then tokensPerSecond outputTokens totalTime else 0))
          (some (cost inputTokens outputTokens model.inputCostPer1M
            model.outputCostPer1M))) := by
  by_cases h : 0 < totalTime
  · simp [completeEvent, Platform.toNumber, bind, Except.bind, pure, Except.pure, h]
  · simp [completeEvent, Platform.toNumber, bind, Except.bind, pure, Except.pure, h]

/-- C8, counterexample. An adapter result with a negative total time (the clock
went back between the two readings) and 5 output tokens has a non-zero total time,
and its `complete` event carries `tokensPerSecond` 0, which is not the quotient
5 / (-1000 / 1000) rounded to one decimal place. -/
theorem tokensPerSecond_nonzero_counterexample :
    (⟨0, -1000, .num 0, .num 5, ""⟩ : AdapterResult).totalTime ≠ 0
      ∧ (completeEvent (samplePlatform []) modelA ⟨0, -1000, .num 0, .num 5, ""⟩).map
          Event.tokensPerSecond? = .ok (some 0)
      ∧ ¬ RoundedToOneDecimal (5 / (((-1000 : ℤ) : ℚ) / 1000)) 0 := by
  refine ⟨by decide, rfl, ?_⟩
  rintro ⟨-, h⟩
  norm_num [abs_le] at h

/-- C8, amended. For every adapter result with numeric counters, the `try` block
reaches the `complete` event, whose `tokensPerSecond` field is, when the total time
is positive, the output tokens divided by the total time in seconds, rounded to
one decimal place, and is 0 when the total time is zero or negative. -/
theorem completeEvent_tokensPerSecond (P : Platform) (model : Model) (ttft totalTime : ℤ)
    (inputTokens outputTokens : ℚ) (output : String) :
    ∃ t complete, RoundedToOneDecimal (outputTokens / ((totalTime : ℚ) / 1000)) t
      ∧ completeEvent P model ⟨ttft, totalTime, .num inputTokens, .num outputTokens, output⟩
          = .ok complete
      ∧ complete.tokensPerSecond? = some (if 0 < totalTime then t else 0) := by
  refine ⟨_, _, jsRound_rounded (outputTokens / ((totalTime : ℚ) / 1000)),
    completeEvent_num P model ttft totalTime inputTokens outputTokens output, ?_⟩
  by_cases h : 0 < totalTime
  · simp [Event.tokensPerSecond?, tokensPerSecond, h]
  · simp [Event.tokensPerSecond?, h]

/-- C9. For every adapter result with numeric counters and every model
descriptor, the `try` block reaches the `complete` event, whose `cost` field is
input tokens times input price over a million plus output tokens times output
price over a million; 1000 and 2000 tokens at prices 3 and 15 cost
0.003 + 0.03 = 0.033. -/
theorem completeEvent_cost (P : Platform) (model : Model) (ttft totalTime : ℤ)
    (inputTokens outputTokens : ℚ) (output : String) :
    (∃ complete,
      completeEvent P model ⟨ttft, totalTime, .num inputTokens, .num outputTokens, output⟩
          = .ok complete
        ∧ complete.cost? = some (inputTokens * model.inputCostPer1M / 1000000
            + outputTokens * model.outputCostPer1M / 1000000))
    ∧ (∃ complete,
      completeEvent P modelA ⟨ttft, totalTime, .num 1000, .num 2000, output⟩ = .ok complete
        ∧ complete.cost? = some (3 / 1000 + 3 / 100))
    ∧ (3 / 1000 + 3 / 100 : ℚ) = 33 / 1000 := by
  refine ⟨⟨_, completeEvent_num P model ttft totalTime inputTokens outputTokens output, ?_⟩,
    ⟨_, completeEvent_num P modelA ttft totalTime 1000 2000 output, ?_⟩, by norm_num⟩
  · simp [Event.cost?, cost]
  · simp only [Event.cost?, cost, modelA]
    norm_num

/-! ## `consumeSSE` as a run of the callback over the lines -/

theorem deliver_record (ls acc : List (List Char)) :
    deliver (fun acc line => Except.ok (acc ++ [line])) ls acc = (acc ++ ls, none) := by
  induction ls generalizing acc with
  | nil => simp [deliver]
  | cons l ls ih => simp [deliver, ih]

theorem consumeLoop_record (P : Platform) (fl : Option JSError) (chunks : List (List Byte))
    (d : P.DecState) (buf : List Char) (acc : List (List Char)) :
    (consumeLoop P (fun acc line => Except.ok (acc ++ [line])) fl chunks d buf acc).1
      = acc ++ (consumeLoop P (fun acc line => Except.ok (acc ++ [line])) fl chunks d buf []).1 := by
  induction chunks generalizing d buf acc with
  | nil =>
    cases fl with
    | some e => simp [consumeLoop]
    | none =>
      simp only [consumeLoop]
      split_ifs <;> simp [deliver_record]
  | cons c cs ih =>
    simp only [consumeLoop, deliver_record]
    rw [ih, ih _ _ ([] ++ _)]
    simp

theorem consumeLoop_eq_deliver {σ : Type} (P : Platform)
    (f : σ → List Char → Except JSError σ) (fl : Option JSError) (chunks : List (List Byte))
    (d : P.DecState) (buf : List Char) (s : σ) :
    consumeLoop P f fl chunks d buf s
      = endOfStream
          (deliver f
            (consumeLoop P (fun acc line => Except.ok (acc ++ [line])) fl chunks d buf []).1 s)
          fl := by
  induction chunks generalizing d buf s with
  | nil =>
    cases fl with
    | some e => simp [consumeLoop, deliver, endOfStream]
    | none =>
      simp only [consumeLoop]
      split_ifs
      · simp only [deliver_record, List.nil_append]
        rcases deliver f [buf] s with ⟨s1, _ | e⟩ <;> rfl
      · simp [deliver, endOfStream]
  | cons c cs ih =>
    simp only [consumeLoop, deliver_record]
    rw [consumeLoop_record, deliver_append, List.nil_append]
    rcases deliver f _ s with ⟨s1, _ | e⟩
    · simp only
      rw [ih]
    · simp [endOfStream]

theorem consumeSSE_eq_deliver {σ : Type} (P : Platform)
    (f : σ → List Char → Except JSError σ) (body : Body) (s : σ) :
    consumeSSE P f body s = endOfStream (deliver f (sseLines P body) s) body.failure :=
  consumeLoop_eq_deliver P f body.failure body.chunks P.decInit [] s

theorem deliver_invariant {σ : Type} (f : σ → List Char → Except JSError σ)
    (Q : List (List Char) → σ → Prop)
    (hstep : ∀ pre st line st', Q pre st → f st line = .ok st' → Q (pre ++ [line]) st')
    (ls pre : List (List Char)) (s : σ) (h0 : Q pre s) :
    ∃ n, n ≤ ls.length ∧ Q (pre ++ ls.take n) (deliver f ls s).1
      ∧ (match (deliver f ls s).2 with
          | none => n = ls.length
          | some e => ∃ line, ls[n]? = some line ∧ f (deliver f ls s).1 line = .error e) := by
  induction ls generalizing pre s with
  | nil => exact ⟨0, le_refl _, by simpa [deliver] using h0, rfl⟩
  | cons l ls ih =>
    simp only [deliver]
    cases hf : f s l with
    | error e => exact ⟨0, Nat.zero_le _, by simpa using h0, l, by simp, hf⟩
    | ok s1 =>
      obtain ⟨n, hn, hq, hlen⟩ := ih (pre ++ [l]) s1 (hstep pre s l s1 h0 hf)
      refine ⟨n + 1, by simpa using hn, ?_, ?_⟩
      · simpa [List.append_assoc] using hq
      · simp only
        cases hd : (deliver f ls s1).2 with
        | none =>
          simp only [hd] at hlen
          simp [hlen]
        | some e =>
          simp only [hd] at hlen
          simpa using hlen

/-! ## The callbacks of the adapters -/

theorem concatContents_concat (P : Platform) (evs : List AdapterEvent) (c : JSVal)
    (o piece : String) (ho : concatContents P evs = some o) (hc : P.toStr c = .ok piece) :
    concatContents P (evs ++ [.chunk c]) = some (o ++ piece) := by
  induction evs generalizing o with
  | nil =>
    simp only [concatContents, Option.some.injEq] at ho
    subst ho
    simp [concatContents, AdapterEvent.content, hc]
  | cons ev evs ih =>
    simp only [concatContents] at ho
    cases h1 : P.toStr ev.content with
    | error e => simp [h1] at ho
    | ok p1 =>
      cases h2 : concatContents P evs with
      | none => simp [h1, h2] at ho
      | some rest =>
        simp only [h1, h2, Option.some.injEq] at ho
        subst ho
        simp [concatContents, h1, ih rest h2, String.append_assoc]

theorem chunkInv_step {P : Platform} {start now : ℤ} {frag : List Char → Option JSVal}
    {pre : List (List Char)} {st st' : AdapterState} {line : List Char}
    (hinv : ChunkInv P frag pre st) (hstep : StepSpec P start now (frag line) st st') :
    ChunkInv P frag (pre ++ [line]) st' := by
  obtain ⟨h1, h2, h3⟩ := hinv
  unfold StepSpec at hstep
  cases hfr : frag line with
  | none =>
    simp only [hfr] at hstep
    obtain ⟨he, ht, ho⟩ := hstep
    refine ⟨?_, ?_, ?_⟩
    · rw [he, h1]
      simp [List.filterMap_append, hfr]
    · rw [he, ho]
      exact h2
    · rw [he, ht]
      exact h3
  | some c =>
    simp only [hfr] at hstep
    obtain ⟨he, -, piece, hc, ho⟩ := hstep
    refine ⟨?_, ?_, ?_⟩
    · rw [he, h1]
      simp [List.filterMap_append, hfr]
    · rw [he, ho]
      exact concatContents_concat P st.events c st.output piece h2 hc
    · rw [he]
      simp

theorem optGet_obj (fields : List (String × JSVal)) (k : String) :
    (JSVal.obj fields).optGet k = lookupField k fields := rfl

theorem truthy_or_empty (v : JSVal) : (v.or (.str "")).truthy = v.truthy := by
  unfold JSVal.or
  by_cases h : v.truthy = true
  · rw [if_pos h]
  · rw [if_neg h]
    simpa [JSVal.truthy] using h

theorem or_of_truthy {v d : JSVal} (h : v.truthy = true) : v.or d = v := by
  simp [JSVal.or, h]

theorem isStr_eq_true {v : JSVal} {lit : String} (h : v.isStr lit = true) : v = .str lit := by
  cases v <;> simp_all [JSVal.isStr]

theorem anthropicOnLine_ok (P : Platform) (start now : ℤ) (st : AdapterState)
    (line : List Char) (st' : AdapterState)
    (hf : anthropicOnLine P start now st line = .ok st') :
    StepSpec P start now ((frameOf P line).bind anthropicFragment) st st'
      ∧ st'.streamError = ((frameOf P line).bind anthropicErrorMessage).getD st.streamError := by
  unfold anthropicOnLine at hf
  cases hp : P.parse (line.drop 6) with
  | none =>
    simp only [hp, Except.ok.injEq] at hf
    subst hf
    simp [frameOf, hp, StepSpec]
  | some data =>
    simp only [hp] at hf
    cases data with
    | undefined => simp [JSVal.get, bind, Except.bind] at hf
    | null => simp [JSVal.get, bind, Except.bind] at hf
    | bool b =>
      simp [JSVal.get, bind, Except.bind, JSVal.isStr, pure, Except.pure] at hf
      subst hf
      simp [frameOf, hp, StepSpec, anthropicFragment, anthropicErrorMessage, JSVal.optGet,
        JSVal.isStr]
    | num q =>
      simp [JSVal.get, bind, Except.bind, JSVal.isStr, pure, Except.pure] at hf
      subst hf
      simp [frameOf, hp, StepSpec, anthropicFragment, anthropicErrorMessage, JSVal.optGet,
        JSVal.isStr]
    | str t =>
      simp [JSVal.get, bind, Except.bind, JSVal.isStr, pure, Except.pure] at hf
      subst hf
      simp [frameOf, hp, StepSpec, anthropicFragment, anthropicErrorMessage, JSVal.optGet,
        JSVal.isStr]
    | arr xs =>
      simp [JSVal.get, bind, Except.bind, JSVal.isStr, pure, Except.pure] at hf
      subst hf
      simp [frameOf, hp, StepSpec, anthropicFragment, anthropicErrorMessage, JSVal.optGet,
        JSVal.isStr]
    | obj fields =>
      simp only [JSVal.get, bind, Except.bind, pure, Except.pure, truthy_or_empty] at hf
      split_ifs at hf with h1 h2 h3 h4 h5
      · simp only [Except.ok.injEq] at hf
        subst hf
        simp [frameOf, hp, StepSpec, anthropicFragment, anthropicErrorMessage, optGet_obj,
          isStr_eq_true h1, JSVal.isStr]
      · simp only [Except.ok.injEq] at hf
        subst hf
        simp only [Bool.not_eq_true', ] at h3
        simp [frameOf, hp, StepSpec, anthropicFragment, anthropicErrorMessage, optGet_obj,
          isStr_eq_true h2, JSVal.isStr, h3]
      · simp only [Bool.not_eq_true', Bool.not_eq_false] at h3
        rw [or_of_truthy h3] at hf
        cases hts : P.toStr ((lookupField "delta" fields).optGet "text") with
        | error e => simp [hts] at hf
        | ok piece =>
          simp only [hts, Except.ok.injEq] at hf
          subst hf
          simp [frameOf, hp, StepSpec, anthropicFragment, anthropicErrorMessage, optGet_obj,
            isStr_eq_true h2, JSVal.isStr, h3, hts]
      · simp only [Except.ok.injEq] at hf
        subst hf
        simp [frameOf, hp, StepSpec, anthropicFragment, anthropicErrorMessage, optGet_obj,
          isStr_eq_true h4, JSVal.isStr]
      · simp only [Except.ok.injEq] at hf
        subst hf
        simp [frameOf, hp, StepSpec, anthropicFragment, anthropicErrorMessage, optGet_obj,
          isStr_eq_true h5, JSVal.isStr]
      · simp only [Except.ok.injEq] at hf
        subst hf
        simp [frameOf, hp, StepSpec, anthropicFragment, anthropicErrorMessage, optGet_obj, h2,
          h5]

theorem get_obj (fields : List (String × JSVal)) (k : String) :
    (JSVal.obj fields).get k = .ok (lookupField k fields) := rfl

theorem openAIOnLine_ok (P : Platform) (start now : ℤ) (st : AdapterState)
    (line : List Char) (st' : AdapterState)
    (hf : openAIOnLine P start now st line = .ok st') :
    StepSpec P start now ((trimmedFrameOf P line).bind openAIFragment) st st'
      ∧ st'.streamError = st.streamError := by
  unfold openAIOnLine at hf
  cases hp : P.parse (jsTrim (line.drop 6)) with
  | none =>
    simp only [hp, Except.ok.injEq] at hf
    subst hf
    simp [trimmedFrameOf, hp, StepSpec]
  | some data =>
    simp only [hp] at hf
    cases data with
    | undefined => simp [JSVal.get, bind, Except.bind] at hf
    | null => simp [JSVal.get, bind, Except.bind] at hf
    | bool b =>
      simp [JSVal.get, bind, Except.bind, JSVal.isStr, pure, Except.pure] at hf
      subst hf
      simp [trimmedFrameOf, hp, StepSpec, openAIFragment, JSVal.optGet, JSVal.isStr]
    | num q =>
      simp [JSVal.get, bind, Except.bind, JSVal.isStr, pure, Except.pure] at hf
      subst hf
      simp [trimmedFrameOf, hp, StepSpec, openAIFragment, JSVal.optGet, JSVal.isStr]
    | str t =>
      simp [JSVal.get, bind, Except.bind, JSVal.isStr, pure, Except.pure] at hf
      subst hf
      simp [trimmedFrameOf, hp, StepSpec, openAIFragment, JSVal.optGet, JSVal.isStr]
    | arr xs =>
      simp [JSVal.get, bind, Except.bind, JSVal.isStr, pure, Except.pure] at hf
      subst hf
      simp [trimmedFrameOf, hp, StepSpec, openAIFragment, JSVal.optGet, JSVal.isStr]
    | obj fields =>
      simp only [get_obj, bind, Except.bind, pure, Except.pure] at hf
      split_ifs at hf with h1 h2 h3
      · cases hts : P.toStr ((lookupField "delta" fields).or (.str "")) with
        | error e => simp [hts] at hf
        | ok piece =>
          simp only [hts, Except.ok.injEq] at hf
          subst hf
          simp [trimmedFrameOf, hp, StepSpec, openAIFragment, optGet_obj, h1, hts]
      · cases hu1 : ((lookupField "response" fields).optGet "usage").get "input_tokens" with
        | error e => simp [hu1] at hf
        | ok v1 =>
          cases hu2 : ((lookupField "response" fields).optGet "usage").get "output_tokens" with
          | error e => simp [hu1, hu2] at hf
          | ok v2 =>
            simp only [hu1, hu2, Except.ok.injEq] at hf
            subst hf
            simp [trimmedFrameOf, hp, StepSpec, openAIFragment, optGet_obj, h1]
      · simp only [Except.ok.injEq] at hf
        subst hf
        simp [trimmedFrameOf, hp, StepSpec, openAIFragment, optGet_obj, h1]
      · simp only [Except.ok.injEq] at hf
        subst hf
        simp [trimmedFrameOf, hp, StepSpec, openAIFragment, optGet_obj, h1]

theorem geminiUsage_ok (data : JSVal) (st st' : AdapterState)
    (hf : geminiUsage data st = .ok st') :
    st'.events = st.events ∧ st'.ttft = st.ttft ∧ st'.output = st.output
      ∧ st'.streamError = st.streamError := by
  unfold geminiUsage at hf
  simp only [bind, Except.bind, pure, Except.pure] at hf
  cases h0 : data.get "usageMetadata" with
  | error e => simp [h0] at hf
  | ok um =>
    simp only [h0] at hf
    split_ifs at hf
    · cases h1 : um.get "promptTokenCount" with
      | error e => simp [h1] at hf
      | ok v1 =>
        cases h2 : um.get "candidatesTokenCount" with
        | error e => simp [h1, h2] at hf
        | ok v2 =>
          simp only [h1, h2, Except.ok.injEq] at hf
          subst hf
          exact ⟨rfl, rfl, rfl, rfl⟩
    · simp only [Except.ok.injEq] at hf
      subst hf
      exact ⟨rfl, rfl, rfl, rfl⟩

theorem get_ok_eq_optGet {data v : JSVal} {k : String} (h : data.get k = .ok v) :
    v = data.optGet k := by
  cases data <;> simp_all [JSVal.get, JSVal.optGet]

theorem geminiOnLine_ok (P : Platform) (start now : ℤ) (st : AdapterState)
    (line : List Char) (st' : AdapterState)
    (hf : geminiOnLine P start now st line = .ok st') :
    StepSpec P start now ((frameOf P line).bind geminiFragment) st st'
      ∧ st'.streamError = st.streamError := by
  unfold geminiOnLine at hf
  cases hp : P.parse (line.drop 6) with
  | none =>
    simp only [hp, Except.ok.injEq] at hf
    subst hf
    simp [frameOf, hp, StepSpec]
  | some data =>
    simp only [hp, bind, Except.bind] at hf
    cases hc : data.get "candidates" with
    | error e => simp [hc] at hf
    | ok cands =>
      have hcands := get_ok_eq_optGet hc
      subst hcands
      simp only [hc] at hf
      split_ifs at hf with h1
      · cases hts : P.toStr (((((data.optGet "candidates").optFirst).optGet "content").optGet
            "parts").optFirst.optGet "text") with
        | error e => simp [hts] at hf
        | ok piece =>
          simp only [hts] at hf
          obtain ⟨he, ht, ho, hs⟩ := geminiUsage_ok _ _ _ hf
          have hfrag : (frameOf P line).bind geminiFragment
              = some (((((data.optGet "candidates").optFirst).optGet "content").optGet
                  "parts").optFirst.optGet "text") := by
            simp [frameOf, hp, geminiFragment, h1]
          rw [hfrag]
          exact ⟨⟨he, ht, piece, hts, ho⟩, hs⟩
      · obtain ⟨he, ht, ho, hs⟩ := geminiUsage_ok _ _ _ hf
        have hfrag : (frameOf P line).bind geminiFragment = none := by
          simp [frameOf, hp, geminiFragment, h1]
        rw [hfrag]
        exact ⟨⟨he, ht, ho⟩, hs⟩

theorem onLine_ok (fam : Family) (P : Platform) (start now : ℤ) (st : AdapterState)
    (line : List Char) (st' : AdapterState) (hf : onLine fam P start now st line = .ok st') :
    StepSpec P start now (lineFragment fam P line) st st'
      ∧ st'.streamError = (lineError fam P line).getD st.streamError := by
  cases fam with
  | anthropic => exact anthropicOnLine_ok P start now st line st' hf
  | openai => exact openAIOnLine_ok P start now st line st' hf
  | google => exact geminiOnLine_ok P start now st line st' hf

theorem streamInv_init (fam : Family) (P : Platform) : StreamInv fam P [] AdapterState.init := by
  simp [StreamInv, ChunkInv, AdapterState.init, concatContents]

theorem streamInv_step (fam : Family) (P : Platform) (start now : ℤ)
    (pre : List (List Char)) (st : AdapterState) (line : List Char) (st' : AdapterState)
    (hinv : StreamInv fam P pre st) (hf : onLine fam P start now st line = .ok st') :
    StreamInv fam P (pre ++ [line]) st' := by
  obtain ⟨hstep, herr⟩ := onLine_ok fam P start now st line st' hf
  refine ⟨chunkInv_step hinv.1 hstep, ?_⟩
  rw [herr, hinv.2, List.filterMap_append]
  cases hle : lineError fam P line with
  | none => simp [hle]
  | some m => simp [hle]

theorem adapter_eq_runAdapter (fam : Family) (P : Platform) (env : CallEnv) (model : Model)
    (prompt systemPrompt maxTokens temperature webSearch : JSVal) :
    adapter fam P env model prompt systemPrompt maxTokens temperature webSearch
      = runAdapter P env (keyName fam) (endpoint fam model)
          (requestBody fam model prompt systemPrompt maxTokens temperature webSearch)
          (onLine fam P env.start env.firstFragment) (afterStream fam P env) := by
  cases fam <;> rfl

/-- The course of an answered call: the callback ran over the first `n` lines of
the body; it either went through all of them, the read did not fail and the
adapter ended as `afterStream` says, or the invocation failed with the error of
the callback on line `n` or with the failure of the read. -/
theorem adapter_answered (fam : Family) (P : Platform) (env : CallEnv) (model : Model)
    (prompt systemPrompt maxTokens temperature webSearch : JSVal) (resp : HttpResponse)
    (hkey : keyMissing (env.env (keyName fam)) = false)
    (hfetch : env.fetch (endpoint fam model)
      (requestBody fam model prompt systemPrompt maxTokens temperature webSearch) = .ok resp)
    (hok : resp.ok = true) :
    ∃ n st, n ≤ (sseLines P resp.body).length
      ∧ StreamInv fam P ((sseLines P resp.body).take n) st
      ∧ (adapter fam P env model prompt systemPrompt maxTokens temperature webSearch).events
          = st.events
      ∧ ((n = (sseLines P resp.body).length ∧ resp.body.failure = none
            ∧ (adapter fam P env model prompt systemPrompt maxTokens temperature webSearch).settle
                = afterStream fam P env st)
          ∨ (∃ e, (adapter fam P env model prompt systemPrompt maxTokens temperature
                  webSearch).settle = .error e
              ∧ ((∃ line, (sseLines P resp.body)[n]? = some line
                    ∧ onLine fam P env.start env.firstFragment st line = .error e)
                  ∨ resp.body.failure = some e))) := by
  obtain ⟨n, hn, hq, hend⟩ := deliver_invariant (onLine fam P env.start env.firstFragment)
    (StreamInv fam P) (streamInv_step fam P env.start env.firstFragment)
    (sseLines P resp.body) [] AdapterState.init (streamInv_init fam P)
  rw [adapter_eq_runAdapter]
  simp only [runAdapter, hkey, hfetch, hok, consumeSSE_eq_deliver]
  rw [List.nil_append] at hq
  rcases hd : deliver (onLine fam P env.start env.firstFragment) (sseLines P resp.body)
    AdapterState.init with ⟨st, _ | e⟩
  · rw [hd] at hq hend
    simp only at hend
    cases hfl : resp.body.failure with
    | none =>
      refine ⟨n, st, hn, hq, ?_, Or.inl ⟨hend, rfl, ?_⟩⟩ <;> simp [endOfStream]
    | some e =>
      refine ⟨n, st, hn, hq, ?_, Or.inr ⟨e, ?_, Or.inr rfl⟩⟩ <;> simp [endOfStream]
  · rw [hd] at hq hend
    simp only at hend
    refine ⟨n, st, hn, hq, ?_, Or.inr ⟨e, ?_, Or.inl hend⟩⟩ <;> simp [endOfStream]

theorem adapter_ok_answered (fam : Family) (P : Platform) (env : CallEnv) (model : Model)
    (prompt systemPrompt maxTokens temperature webSearch : JSVal) (r : AdapterResult)
    (hs : (adapter fam P env model prompt systemPrompt maxTokens temperature webSearch).settle
      = .ok r) :
    ∃ resp, keyMissing (env.env (keyName fam)) = false
      ∧ env.fetch (endpoint fam model)
          (requestBody fam model prompt systemPrompt maxTokens temperature webSearch) = .ok resp
      ∧ resp.ok = true := by
  rw [adapter_eq_runAdapter] at hs
  unfold runAdapter at hs
  by_cases hkey : keyMissing (env.env (keyName fam)) = true
  · simp [hkey] at hs
  · cases hfetch : env.fetch (endpoint fam model)
        (requestBody fam model prompt systemPrompt maxTokens temperature webSearch) with
    | error e => simp [hkey, hfetch] at hs
    | ok resp =>
      by_cases hok : resp.ok = true
      · exact ⟨resp, by simpa using hkey, rfl, hok⟩
      · simp [hkey, hfetch, hok] at hs

/-! ## The adapters: fragments, output and time to first token -/

/-- C4. For each of the three adapters and every answered call: the events passed
to `onEvent` are `chunk` events that carry, verbatim and in the order of the lines,
the text fragments of the lines the callback went through, which are all the lines
of the body when the invocation succeeds; and the `output` of the result is then
the concatenation, in order, of the contents of these events. -/
theorem adapter_chunks_verbatim (fam : Family) (P : Platform) (env : CallEnv) (model : Model)
    (prompt systemPrompt maxTokens temperature webSearch : JSVal) (resp : HttpResponse)
    (hkey : keyMissing (env.env (keyName fam)) = false)
    (hfetch : env.fetch (endpoint fam model)
      (requestBody fam model prompt systemPrompt maxTokens temperature webSearch) = .ok resp)
    (hok : resp.ok = true) :
    ∃ n, n ≤ (sseLines P resp.body).length
      ∧ (adapter fam P env model prompt systemPrompt maxTokens temperature webSearch).events
          = (((sseLines P resp.body).take n).filterMap (lineFragment fam P)).map
              AdapterEvent.chunk
      ∧ ∀ r, (adapter fam P env model prompt systemPrompt maxTokens temperature
            webSearch).settle = .ok r →
          n = (sseLines P resp.body).length
            ∧ concatContents P (adapter fam P env model prompt systemPrompt maxTokens
                temperature webSearch).events = some r.output := by
  obtain ⟨n, st, hn, hinv, hev, hcase⟩ := adapter_answered fam P env model prompt systemPrompt
    maxTokens temperature webSearch resp hkey hfetch hok
  refine ⟨n, hn, by rw [hev, hinv.1.1], ?_⟩
  intro r hr
  rcases hcase with ⟨hlen, -, hsettle⟩ | ⟨e, he, -⟩
  · refine ⟨hlen, ?_⟩
    rw [hsettle] at hr
    have hout : st.output = r.output := by
      cases fam with
      | anthropic =>
        simp only [afterStream] at hr
        split_ifs at hr
        · cases hts : P.toStr st.streamError <;> simp [hts] at hr
        · simp only [Except.ok.injEq] at hr
          rw [← hr]
          rfl
      | openai =>
        simp only [afterStream, Except.ok.injEq] at hr
        rw [← hr]
        rfl
      | google =>
        simp only [afterStream, Except.ok.injEq] at hr
        rw [← hr]
        rfl
    rw [hev, ← hout]
    exact hinv.1.2.1
  · rw [he] at hr
    cases hr

/-- C4, on the fragments `Hel`, `lo, `, `world` of a Family A stream: three
`chunk` events with these contents and the output `Hello, world`. -/
theorem adapter_chunks_verbatim_witness :
    (adapter .anthropic (samplePlatform [deltaA "Hel", deltaA "lo, ", deltaA "world"])
        (sampleEnv [deltaA "Hel", deltaA "lo, ", deltaA "world"]) modelA (.str "hi") (.str "")
        (.num 4096) (.num 0) (.bool false)
      = ⟨[.chunk (.str "Hel"), .chunk (.str "lo, "), .chunk (.str "world")],
          .ok ⟨250, 2000, .num 0, .num 0, "Hello, world"⟩⟩)
    ∧ ∃ n, n ≤ (sseLines (samplePlatform [deltaA "Hel", deltaA "lo, ", deltaA "world"])
          (sampleBody [deltaA "Hel", deltaA "lo, ", deltaA "world"])).length
      ∧ (adapter .anthropic (samplePlatform [deltaA "Hel", deltaA "lo, ", deltaA "world"])
          (sampleEnv [deltaA "Hel", deltaA "lo, ", deltaA "world"]) modelA (.str "hi") (.str "")
          (.num 4096) (.num 0) (.bool false)).events
        = (((sseLines (samplePlatform [deltaA "Hel", deltaA "lo, ", deltaA "world"])
              (sampleBody [deltaA "Hel", deltaA "lo, ", deltaA "world"])).take n).filterMap
            (lineFragment .anthropic
              (samplePlatform [deltaA "Hel", deltaA "lo, ", deltaA "world"]))).map
            AdapterEvent.chunk
      ∧ ∀ r, (adapter .anthropic (samplePlatform [deltaA "Hel", deltaA "lo, ", deltaA "world"])
            (sampleEnv [deltaA "Hel", deltaA "lo, ", deltaA "world"]) modelA (.str "hi")
            (.str "") (.num 4096) (.num 0) (.bool false)).settle = .ok r →
          n = (sseLines (samplePlatform [deltaA "Hel", deltaA "lo, ", deltaA "world"])
              (sampleBody [deltaA "Hel", deltaA "lo, ", deltaA "world"])).length
            ∧ concatContents (samplePlatform [deltaA "Hel", deltaA "lo, ", deltaA "world"])
                (adapter .anthropic (samplePlatform [deltaA "Hel", deltaA "lo, ", deltaA "world"])
                  (sampleEnv [deltaA "Hel", deltaA "lo, ", deltaA "world"]) modelA (.str "hi")
                  (.str "") (.num 4096) (.num 0) (.bool false)).events = some r.output :=
  ⟨rfl,
    adapter_chunks_verbatim .anthropic
      (samplePlatform [deltaA "Hel", deltaA "lo, ", deltaA "world"])
      (sampleEnv [deltaA "Hel", deltaA "lo, ", deltaA "world"]) modelA (.str "hi") (.str "")
      (.num 4096) (.num 0) (.bool false)
      ⟨true, 200, .ok "", sampleBody [deltaA "Hel", deltaA "lo, ", deltaA "world"]⟩ rfl rfl rfl⟩

/-- An adapter that succeeds without having emitted a `chunk` event returns the
empty output and `ttft` 0, whatever the clock reads. -/
theorem adapter_ttft_zero_of_no_chunk (fam : Family) (P : Platform) (env : CallEnv)
    (model : Model) (prompt systemPrompt maxTokens temperature webSearch : JSVal)
    (r : AdapterResult)
    (hs : (adapter fam P env model prompt systemPrompt maxTokens temperature webSearch).settle
      = .ok r)
    (he : (adapter fam P env model prompt systemPrompt maxTokens temperature webSearch).events
      = []) :
    r.ttft = 0 ∧ r.output = "" := by
  obtain ⟨resp, hkey, hfetch, hok⟩ := adapter_ok_answered fam P env model prompt systemPrompt
    maxTokens temperature webSearch r hs
  obtain ⟨n, st, hn, hinv, hev, hcase⟩ := adapter_answered fam P env model prompt systemPrompt
    maxTokens temperature webSearch resp hkey hfetch hok
  have hst : st.events = [] := by rw [← hev, he]
  have hr : r = adapterResult st env.start env.finish := by
    rcases hcase with ⟨-, -, hsettle⟩ | ⟨e, hfail, -⟩
    · rw [hsettle] at hs
      cases fam with
      | anthropic =>
        simp only [afterStream] at hs
        split_ifs at hs
        · cases hts : P.toStr st.streamError <;> simp [hts] at hs
        · simpa using hs.symm
      | openai => simpa [afterStream] using hs.symm
      | google => simpa [afterStream] using hs.symm
    · rw [hfail] at hs
      cases hs
  refine ⟨?_, ?_⟩
  · rw [hr]
    simp [adapterResult, hinv.1.2.2 hst, ttftOrZero]
  · have := hinv.1.2.1
    rw [hst] at this
    simp only [concatContents, Option.some.injEq] at this
    rw [hr]
    exact this.symm

/-- C7, the failing input. On a Family B stream whose only text frame has an empty
`delta`, or none, `streamOpenAI` produces no content (the output is empty) and
still stamps `ttft`: the result has the `ttft` 250 of the clock, not 0, and so has
the `complete` event of the task. On the same stream of their own family,
`streamAnthropic` and `streamGemini` skip the empty fragment and return `ttft` 0. -/
theorem streamOpenAI_ttft_on_empty_delta :
    (streamOpenAI (samplePlatform [deltaB ""]) (sampleEnv [deltaB ""]) modelB (.str "hi")
        (.str "") (.num 4096) (.num 0) (.bool false)
      = ⟨[.chunk (.str "")], .ok ⟨250, 2000, .num 0, .num 0, ""⟩⟩)
    ∧ ((taskEvents (samplePlatform [deltaB ""]) modelB
          (streamOpenAI (samplePlatform [deltaB ""]) (sampleEnv [deltaB ""]) modelB (.str "hi")
            (.str "") (.num 4096) (.num 0) (.bool false))).map Event.ttft?
        = [none, none, some 250])
    ∧ (streamOpenAI (samplePlatform [deltaWithoutText]) (sampleEnv [deltaWithoutText]) modelB
        (.str "hi") (.str "") (.num 4096) (.num 0) (.bool false)
      = ⟨[.chunk (.str "")], .ok ⟨250, 2000, .num 0, .num 0, ""⟩⟩)
    ∧ (streamAnthropic (samplePlatform [deltaA ""]) (sampleEnv [deltaA ""]) modelA (.str "hi")
        (.str "") (.num 4096) (.num 0) (.bool false)
      = ⟨[], .ok ⟨0, 2000, .num 0, .num 0, ""⟩⟩)
    ∧ (streamGemini (samplePlatform [frameC ""]) (sampleEnv [frameC ""]) modelA (.str "hi")
        (.str "") (.num 4096) (.num 0) (.bool false)
      = ⟨[], .ok ⟨0, 2000, .num 0, .num 0, ""⟩⟩) :=
  ⟨rfl, rfl, rfl, rfl, rfl⟩

/-! ## Frames that are not frames -/

theorem deliver_filter_skipped {σ : Type} (f : σ → List Char → Except JSError σ)
    (keep : List Char → Bool) (hskip : ∀ s line, keep line = false → f s line = .ok s)
    (ls : List (List Char)) (s : σ) :
    deliver f (ls.filter keep) s = deliver f ls s := by
  induction ls generalizing s with
  | nil => rfl
  | cons l ls ih =>
    by_cases hk : keep l = true
    · simp only [List.filter_cons, hk, if_true, deliver]
      cases f s l with
      | ok s1 => exact ih s1
      | error e => rfl
    · simp only [Bool.not_eq_true] at hk
      simp only [List.filter_cons, hk, deliver, hskip s l hk]
      simpa using ih s

/-- A line whose payload `JSON.parse` rejects leaves every adapter as it was. -/
theorem onLine_unparsable (fam : Family) (P : Platform) (start now : ℤ) (st : AdapterState)
    (line : List Char) (h1 : frameOf P line = none) (h2 : trimmedFrameOf P line = none) :
    onLine fam P start now st line = .ok st := by
  unfold frameOf at h1
  unfold trimmedFrameOf at h2
  cases fam <;> simp [onLine, anthropicOnLine, openAIOnLine, geminiOnLine, h1, h2]

/-- C5, the failing input. The payload `null` is valid JSON and no frame object.
With the line `data: null` after a text frame, each adapter rejects with the
`TypeError` of reading a property of `null`; without that line, on the same
platform, it succeeds. -/
theorem adapter_null_payload_fails :
    (adapter .anthropic (samplePlatform [deltaA "Hi", .null]) (sampleEnv [deltaA "Hi", .null])
        modelA (.str "hi") (.str "") (.num 4096) (.num 0) (.bool false)
      = ⟨[.chunk (.str "Hi")], .error (typeError "type")⟩)
    ∧ (adapter .anthropic (samplePlatform [deltaA "Hi", .null]) (sampleEnv [deltaA "Hi"])
        modelA (.str "hi") (.str "") (.num 4096) (.num 0) (.bool false)
      = ⟨[.chunk (.str "Hi")], .ok ⟨250, 2000, .num 0, .num 0, "Hi"⟩⟩)
    ∧ (adapter .openai (samplePlatform [deltaB "Hi", .null]) (sampleEnv [deltaB "Hi", .null])
        modelB (.str "hi") (.str "") (.num 4096) (.num 0) (.bool false)
      = ⟨[.chunk (.str "Hi")], .error (typeError "type")⟩)
    ∧ (adapter .openai (samplePlatform [deltaB "Hi", .null]) (sampleEnv [deltaB "Hi"])
        modelB (.str "hi") (.str "") (.num 4096) (.num 0) (.bool false)
      = ⟨[.chunk (.str "Hi")], .ok ⟨250, 2000, .num 0, .num 0, "Hi"⟩⟩)
    ∧ (adapter .google (samplePlatform [frameC "Hi", .null]) (sampleEnv [frameC "Hi", .null])
        modelA (.str "hi") (.str "") (.num 4096) (.num 0) (.bool false)
      = ⟨[.chunk (.str "Hi")], .error (typeError "candidates")⟩)
    ∧ (adapter .google (samplePlatform [frameC "Hi", .null]) (sampleEnv [frameC "Hi"])
        modelA (.str "hi") (.str "") (.num 4096) (.num 0) (.bool false)
      = ⟨[.chunk (.str "Hi")], .ok ⟨250, 2000, .num 0, .num 0, "Hi"⟩⟩) :=
  ⟨rfl, rfl, rfl, rfl, rfl, rfl⟩

/-! ## The request payload and the temperature -/

theorem isDefined_eq_false {v : JSVal} (h : v.isDefined = false) : v = .undefined := by
  cases v <;> simp_all [JSVal.isDefined]

/-- The OpenAI payload has the temperature when one is passed and the model is not
flagged, and none otherwise. -/
theorem openAIBody_temperature (model : Model)
    (prompt systemPrompt maxTokens temperature webSearch : JSVal) :
    payloadTemperature .openai
        (requestBody .openai model prompt systemPrompt maxTokens temperature webSearch)
      = if model.noTemperature then .undefined else temperature := by
  by_cases hd : temperature.isDefined = true <;> by_cases hn : model.noTemperature = true
    <;> by_cases hw : webSearch.truthy = true
    <;> simp [payloadTemperature, requestBody, openAIBody, JSVal.optGet, lookupField, hd, hn, hw]
  all_goals exact (isDefined_eq_false (by simpa using hd)).symm

/-- The Anthropic and Gemini payloads have the temperature that is passed, with
or without the flag of the model. -/
theorem otherBody_temperature (fam : Family) (hfam : fam ≠ .openai) (model : Model)
    (prompt systemPrompt maxTokens temperature webSearch : JSVal) :
    payloadTemperature fam
        (requestBody fam model prompt systemPrompt maxTokens temperature webSearch)
      = temperature := by
  cases fam with
  | openai => exact absurd rfl hfam
  | anthropic =>
    by_cases hd : temperature.isDefined = true <;> by_cases hs : systemPrompt.truthy = true
      <;> by_cases hw : webSearch.truthy = true
      <;> simp [payloadTemperature, requestBody, anthropicBody, JSVal.optGet, lookupField, hd,
        hs, hw]
    all_goals exact (isDefined_eq_false (by simpa using hd)).symm
  | google =>
    by_cases hd : temperature.isDefined = true <;> by_cases hs : systemPrompt.truthy = true
      <;> by_cases hw : webSearch.truthy = true
      <;> simp [payloadTemperature, requestBody, geminiBody, JSVal.optGet, lookupField, hd,
        hs, hw]
    all_goals exact (isDefined_eq_false (by simpa using hd)).symm

/-- C10, the failing input. For a model flagged `noTemperature` and the
temperature 0.7, the payloads of `streamAnthropic` and `streamGemini` carry the
temperature 0.7; only the payload of `streamOpenAI` has no temperature. -/
theorem noTemperature_flag_ignored :
    modelNoTemperature.noTemperature = true
      ∧ payloadTemperature .anthropic
          (anthropicBody modelNoTemperature (.str "hi") (.str "") (.num 4096) (.num (7 / 10))
            (.bool false)) = .num (7 / 10)
      ∧ payloadTemperature .google
          (geminiBody modelNoTemperature (.str "hi") (.str "") (.num 4096) (.num (7 / 10))
            (.bool false)) = .num (7 / 10)
      ∧ payloadTemperature .openai
          (openAIBody modelNoTemperature (.str "hi") (.str "") (.num 4096) (.num (7 / 10))
            (.bool false)) = .undefined :=
  ⟨rfl, rfl, rfl, rfl⟩

/-! ## The `error` frame of Family A -/

theorem anthropicOnLine_error (P : Platform) (start now : ℤ) (st : AdapterState)
    (line : List Char) (e : JSError) (hf : anthropicOnLine P start now st line = .error e) :
    frameOf P line = some .null ∨ frameOf P line = some .undefined
      ∨ ∃ c, lineFragment .anthropic P line = some c ∧ P.toStr c = .error e := by
  unfold anthropicOnLine at hf
  cases hp : P.parse (line.drop 6) with
  | none => simp [hp] at hf
  | some data =>
    simp only [hp] at hf
    cases data with
    | undefined => exact Or.inr (Or.inl hp)
    | null => exact Or.inl hp
    | bool b => simp [JSVal.get, bind, Except.bind, JSVal.isStr, pure, Except.pure] at hf
    | num q => simp [JSVal.get, bind, Except.bind, JSVal.isStr, pure, Except.pure] at hf
    | str t => simp [JSVal.get, bind, Except.bind, JSVal.isStr, pure, Except.pure] at hf
    | arr xs => simp [JSVal.get, bind, Except.bind, JSVal.isStr, pure, Except.pure] at hf
    | obj fields =>
      simp only [JSVal.get, bind, Except.bind, pure, Except.pure, truthy_or_empty] at hf
      split_ifs at hf with h1 h2 h3 h4 h5
      simp only [Bool.not_eq_true', Bool.not_eq_false] at h3
      rw [or_of_truthy h3] at hf
      cases hts : P.toStr ((lookupField "delta" fields).optGet "text") with
      | ok piece => simp [hts] at hf
      | error e1 =>
        simp only [hts, Except.error.injEq] at hf
        subst hf
        refine Or.inr (Or.inr ⟨(lookupField "delta" fields).optGet "text", ?_, hts⟩)
        simp [lineFragment, frameOf, hp, anthropicFragment, optGet_obj, isStr_eq_true h2,
          JSVal.isStr, h3]

theorem lineError_truthy (P : Platform) (line : List Char) (m : JSVal)
    (h : lineError .anthropic P line = some m) : m.truthy = true := by
  simp only [lineError, Option.bind_eq_some] at h
  obtain ⟨data, -, hm⟩ := h
  unfold anthropicErrorMessage at hm
  split_ifs at hm
  simp only [Option.some.injEq] at hm
  subst hm
  unfold JSVal.or
  split_ifs with ht
  · exact ht
  · decide

/-- C6, counterexample. On a Family A stream with an `error` frame followed by a
text frame, `streamAnthropic` still emits the `chunk` event of the text that
follows the `error` frame, and then fails with the message of the frame. -/
theorem streamAnthropic_error_frame_counterexample :
    streamAnthropic (samplePlatform [errorA "Overloaded", deltaA "late"])
        (sampleEnv [errorA "Overloaded", deltaA "late"]) modelA (.str "hi") (.str "")
        (.num 4096) (.num 0) (.bool false)
      = ⟨[.chunk (.str "late")], .error ⟨"Error", "Overloaded"⟩⟩ :=
  rfl

/-- C6, amended. For `streamAnthropic` and every answered call whose body has a
line with an `error` frame, the invocation ends in failure. The failure is raised
after the stream: when the read does not fail, no payload is `null` and the string
coercion throws neither on a text fragment of the body nor on the message of its
last `error` frame, the `chunk` events of all text fragments of the body are
emitted, those after the `error` frame as well, and the message of the failure is
the one of the last `error` frame (`Anthropic stream error` when it carries
none). -/
theorem streamAnthropic_error_frame (P : Platform) (env : CallEnv) (model : Model)
    (prompt systemPrompt maxTokens temperature webSearch : JSVal) (resp : HttpResponse)
    (hkey : keyMissing (env.env "ANTHROPIC_API_KEY") = false)
    (hfetch : env.fetch "https://api.anthropic.com/v1/messages"
      (anthropicBody model prompt systemPrompt maxTokens temperature webSearch) = .ok resp)
    (hok : resp.ok = true)
    (line0 : List Char) (m0 : JSVal) (hmem : line0 ∈ sseLines P resp.body)
    (herr : lineError .anthropic P line0 = some m0) :
    (∃ e, (streamAnthropic P env model prompt systemPrompt maxTokens temperature
        webSearch).settle = .error e)
    ∧ (resp.body.failure = none →
        (∀ line ∈ sseLines P resp.body,
          frameOf P line ≠ some .null ∧ frameOf P line ≠ some .undefined) →
        (∀ line ∈ sseLines P resp.body, ∀ c, lineFragment .anthropic P line = some c →
          ∃ text, P.toStr c = .ok text) →
        (∀ m, ((sseLines P resp.body).filterMap (lineError .anthropic P)).getLast? = some m →
          ∃ text, P.toStr m = .ok text) →
        (streamAnthropic P env model prompt systemPrompt maxTokens temperature webSearch).events
            = ((sseLines P resp.body).filterMap (lineFragment .anthropic P)).map
                AdapterEvent.chunk
          ∧ ∃ m text,
              ((sseLines P resp.body).filterMap (lineError .anthropic P)).getLast? = some m
                ∧ P.toStr m = .ok text
                ∧ (streamAnthropic P env model prompt systemPrompt maxTokens temperature
                    webSearch).settle = .error (mkError text)) := by
  obtain ⟨n, st, hn, hinv, hev, hcase⟩ := adapter_answered .anthropic P env model prompt
    systemPrompt maxTokens temperature webSearch resp hkey hfetch hok
  change (streamAnthropic P env model prompt systemPrompt maxTokens temperature
    webSearch).events = st.events at hev
  have hne : (sseLines P resp.body).filterMap (lineError .anthropic P) ≠ [] := by
    intro h
    have : m0 ∈ (sseLines P resp.body).filterMap (lineError .anthropic P) :=
      List.mem_filterMap.mpr ⟨line0, hmem, herr⟩
    rw [h] at this
    cases this
  obtain ⟨m, hm⟩ : ∃ m,
      ((sseLines P resp.body).filterMap (lineError .anthropic P)).getLast? = some m := by
    cases hl : ((sseLines P resp.body).filterMap (lineError .anthropic P)).getLast? with
    | none => exact absurd (List.getLast?_eq_none_iff.mp hl) hne
    | some m => exact ⟨m, rfl⟩
  have hmt : m.truthy = true := by
    obtain ⟨l, -, hl⟩ := List.mem_filterMap.mp (List.mem_of_getLast?_eq_some hm)
    exact lineError_truthy P l m hl
  have hfull : n = (sseLines P resp.body).length →
      (streamAnthropic P env model prompt systemPrompt maxTokens temperature webSearch).settle
        = afterStream .anthropic P env st →
      (streamAnthropic P env model prompt systemPrompt maxTokens temperature webSearch).settle
        = match P.toStr m with
          | .ok message => .error (mkError message)
          | .error e => .error e := by
    intro hlen hsettle
    have hse : st.streamError = m := by
      rw [hinv.2, hlen, List.take_length, hm]
      rfl
    rw [hsettle]
    simp [afterStream, hse, hmt]
  constructor
  · rcases hcase with ⟨hlen, -, hsettle⟩ | ⟨e, he, -⟩
    · rw [hfull hlen hsettle]
      cases P.toStr m with
      | ok message => exact ⟨_, rfl⟩
      | error e => exact ⟨_, rfl⟩
    · exact ⟨e, he⟩
  · intro hfail hnull hfrag hmsg
    rcases hcase with ⟨hlen, -, hsettle⟩ | ⟨e, -, ⟨line, hline, hthrow⟩ | hread⟩
    · refine ⟨?_, m, ?_⟩
      · rw [hev, hinv.1.1, hlen, List.take_length]
      · obtain ⟨text, htext⟩ := hmsg m hm
        refine ⟨text, hm, htext, ?_⟩
        rw [hfull hlen hsettle, htext]
    · exfalso
      have hl := List.getElem?_mem hline
      rcases anthropicOnLine_error P _ _ st line e hthrow with h | h | ⟨c, hcfrag, hc⟩
      · exact (hnull line hl).1 h
      · exact (hnull line hl).2 h
      · obtain ⟨text, htext⟩ := hfrag line hl c hcfrag
        rw [htext] at hc
        cases hc
    · rw [hfail] at hread
      cases hread

/-- C6, amended, on the stream of an `error` frame followed by a text frame. -/
theorem streamAnthropic_error_frame_witness :
    keyMissing ((sampleEnv errorThenText).env "ANTHROPIC_API_KEY") = false
    ∧ (dataMarker ++ render (errorA "Overloaded"))
        ∈ sseLines (samplePlatform errorThenText) (sampleBody errorThenText)
    ∧ lineError .anthropic (samplePlatform errorThenText)
        (dataMarker ++ render (errorA "Overloaded")) = some (.str "Overloaded")
    ∧ (∃ e, (streamAnthropic (samplePlatform errorThenText) (sampleEnv errorThenText) modelA
        (.str "hi") (.str "") (.num 4096) (.num 0) (.bool false)).settle = .error e)
    ∧ (streamAnthropic (samplePlatform errorThenText) (sampleEnv errorThenText) modelA
        (.str "hi") (.str "") (.num 4096) (.num 0) (.bool false)).events
      = ((sseLines (samplePlatform errorThenText) (sampleBody errorThenText)).filterMap
          (lineFragment .anthropic (samplePlatform errorThenText))).map AdapterEvent.chunk := by
  have hlines : sseLines (samplePlatform errorThenText) (sampleBody errorThenText)
      = [dataMarker ++ render (errorA "Overloaded"), dataMarker ++ render (deltaA "late")] := by
    decide
  have hmem : (dataMarker ++ render (errorA "Overloaded"))
      ∈ sseLines (samplePlatform errorThenText) (sampleBody errorThenText) := by
    rw [hlines]
    exact List.mem_cons_self _ _
  have hthm := streamAnthropic_error_frame (samplePlatform errorThenText)
    (sampleEnv errorThenText) modelA (.str "hi") (.str "") (.num 4096) (.num 0) (.bool false)
    ⟨true, 200, .ok "", sampleBody errorThenText⟩ rfl rfl rfl
    (dataMarker ++ render (errorA "Overloaded")) (.str "Overloaded") hmem rfl
  refine ⟨rfl, hmem, rfl, hthm.1, (hthm.2 rfl ?_ ?_ ?_).1⟩
  · intro line hl
    have hl' : line ∈ [dataMarker ++ render (errorA "Overloaded"),
        dataMarker ++ render (deltaA "late")] := hlines ▸ hl
    simp only [List.mem_cons, List.mem_singleton, List.not_mem_nil, or_false] at hl'
    rcases hl' with rfl | rfl
    · have h : frameOf (samplePlatform errorThenText)
          (dataMarker ++ render (errorA "Overloaded")) = some (errorA "Overloaded") := rfl
      rw [h]
      exact ⟨by simp [errorA], by simp [errorA]⟩
    · have h : frameOf (samplePlatform errorThenText)
          (dataMarker ++ render (deltaA "late")) = some (deltaA "late") := rfl
      rw [h]
      exact ⟨by simp [deltaA], by simp [deltaA]⟩
  · intro line _ c _
    cases c <;> exact ⟨_, rfl⟩
  · intro m _
    cases m <;> exact ⟨_, rfl⟩

end Arena
